import Mathlib

/-!
Verification of the order-lifecycle and inventory-ledger core of a CRM
backend (`app/crud.py`, `app/models.py`).  The Python CRUD layer is shallowly
embedded: the database session becomes an explicit `DB` value, SQL queries
become list operations, `Decimal` becomes `ℚ`, raised `ValueError`s become
`Except Err`.  A raised error aborts the unit of work, so an `Except.error`
result carries no state change, matching the transactional rollback of the
original code.
-/

namespace CRM

/-- `OrderStatus` enum from `app/models.py`. -/
inductive OrderStatus
  | draft
  | confirmed
  | paid
  | fulfilled
  | cancelled
deriving DecidableEq, Repr

/-- `InventoryTransactionType` enum from `app/models.py`
(`ret` embeds the Python member `return_`, value `"return"`). -/
inductive TxType
  | sale
  | ret
  | adjustment
deriving DecidableEq, Repr

/-- Error outcomes: each constructor embeds one `ValueError` message raised by
`app/crud.py` (or the payload validator in `app/models.py`). -/
inductive Err
  | productNotFound
  | insufficientStock
  | customerNotFound
  | itemsRequired
  | negativeGrandTotal
  | assignedUserNotFound
  | zeroQuantity
deriving DecidableEq, Repr

instance {ε α : Type} [DecidableEq ε] [DecidableEq α] :
    DecidableEq (Except ε α) := fun a b =>
  match a, b with
  | .error x, .error y =>
    if h : x = y then isTrue (h ▸ rfl)
    else isFalse (fun hc => h (Except.error.injEq x y ▸ hc))
  | .ok x, .ok y =>
    if h : x = y then isTrue (h ▸ rfl)
    else isFalse (fun hc => h (Except.ok.injEq x y ▸ hc))
  | .error _, .ok _ => isFalse (fun hc => Except.noConfusion hc)
  | .ok _, .error _ => isFalse (fun hc => Except.noConfusion hc)

/-- `Product` row (`app/models.py`): the fields the order/inventory core reads.
`stock` is a plain (possibly negative) integer column with default 0. -/
structure Product where
  id : Nat
  name : List Char
  price : ℚ
  stock : Int
deriving DecidableEq, Repr

/-- `OrderItem` row (`app/models.py`): `product_id` is nullable
(`ondelete="SET NULL"` — a deleted product leaves the line with no product). -/
structure OrderItem where
  productId : Option Nat
  productName : List Char
  quantity : Nat
  unitPrice : ℚ
  totalPrice : ℚ
deriving DecidableEq, Repr

/-- `InventoryTransaction` row (`app/models.py`): append-only ledger entry.
`quantity` is the signed delta. -/
structure Tx where
  productId : Nat
  orderId : Option Nat
  type : TxType
  quantity : Int
  actorId : Option Nat
  memo : Option (List Char)
deriving DecidableEq, Repr

/-- `Order` row (`app/models.py`) with its line items
(the `items` relationship, cascade-deleted with the order). -/
structure Order where
  id : Nat
  customerId : Nat
  orderNumber : List Char
  status : OrderStatus
  items : List OrderItem
  subtotal : ℚ
  discountTotal : ℚ
  taxTotal : ℚ
  shippingFee : ℚ
  grandTotal : ℚ
  confirmedAt : Option Nat
  paidAt : Option Nat
  fulfilledAt : Option Nat
  cancelledAt : Option Nat
  assignedTo : Option Nat
  createdBy : Option Nat
  updatedBy : Option Nat
  createdAt : Nat
  updatedAt : Nat
deriving DecidableEq, Repr

/-- `OrderItemCreate` payload (`app/models.py`): `product_id` mandatory,
`quantity` validated positive. -/
structure OrderItemCreate where
  productId : Nat
  quantity : Nat
deriving DecidableEq, Repr

/-- `OrderCreate` payload (`app/models.py`). -/
structure OrderCreate where
  customerId : Nat
  status : OrderStatus
  assignedTo : Option Nat
  discountTotal : ℚ
  taxTotal : ℚ
  shippingFee : ℚ
  items : List OrderItemCreate
deriving DecidableEq, Repr

/-- `OrderUpdate` payload (`app/models.py`) under
`model_dump(exclude_unset=true)`: `none` embeds an absent key, `some v` a
key present with a non-null value (payloads carrying an explicit null are
outside the model; no claim concerns them). -/
structure OrderUpdate where
  status : Option OrderStatus
  assignedTo : Option Nat
  discountTotal : Option ℚ
  taxTotal : Option ℚ
  shippingFee : Option ℚ
  notes : Option (List Char)
deriving DecidableEq, Repr

/-- `InventoryAdjustmentCreate` payload (`app/models.py`). -/
structure InventoryAdjustmentCreate where
  productId : Nat
  quantity : Int
  memo : Option (List Char)
deriving DecidableEq, Repr

/-- The relevant datastore tables: the explicit state threaded through every
operation (the SQLModel `Session` of `app/crud.py`).  `customers` and `users`
carry only the primary keys, which is all the order code consults. -/
structure DB where
  products : List Product
  orders : List Order
  ledger : List Tx
  customers : List Nat
  users : List Nat
deriving DecidableEq, Repr

/-- `session.exec(select(Product).where(Product.id == product_id))`:
first row with the given primary key. -/
def findProduct : List Product → Nat → Option Product
  | [], _ => none
  | p :: ps, pid => if p.id == pid then some p else findProduct ps pid

/-- The UPDATE issued by `adjust_product_stock`: write the new stock value on
the row(s) with the given primary key. -/
def setProductStock (ps : List Product) (pid : Nat) (s : Int) : List Product :=
  ps.map (fun p => if p.id == pid then { p with stock := s } else p)

/-- `_order_has_transactions` (`crud.py` 52-63): does any ledger row carry this
order id and transaction type? -/
def order_has_transactions (db : DB) (orderId : Nat) (txType : TxType) : Bool :=
  db.ledger.any (fun t => t.orderId == some orderId && t.type == txType)

/-- `INVENTORY_DEDUCT_STATUSES` membership, i.e. `_requires_inventory_deduction`
(`crud.py` 41-49) applied to a present status. -/
def requires_inventory_deduction (status : OrderStatus) : Bool :=
  status == .confirmed || status == .paid || status == .fulfilled

/-- `adjust_product_stock` (`crud.py` 66-100): locate the product (error
`productNotFound` when absent), compute `newStock = stock + delta`, refuse with
`insufficientStock` when negative and `allowNegative` is unset, otherwise
persist the stock and append exactly one ledger entry, returning it. -/
def adjust_product_stock (db : DB) (productId : Nat) (delta : Int)
    (txType : TxType) (orderId : Option Nat) (actorId : Option Nat)
    (memo : Option (List Char)) (allowNegative : Bool) :
    Except Err (DB × Tx) :=
  match findProduct db.products productId with
  | none => .error .productNotFound
  | some p =>
    let newStock := p.stock + delta
    if !allowNegative && newStock < 0 then
      .error .insufficientStock
    else
      let tx : Tx :=
        { productId := productId, orderId := orderId, type := txType,
          quantity := delta, actorId := actorId, memo := memo }
      .ok ({ db with
              products := setProductStock db.products productId newStock,
              ledger := db.ledger ++ [tx] }, tx)

/-- The memo string `f"Order \x7border.order_number\x7d"` used by the
deduction/restore loops. -/
def orderMemo (n : List Char) : List Char :=
  "Order ".data ++ n

/-- Loop body of `deduct_inventory_for_order`: lines with no product are
skipped, the rest get a `sale` entry with delta `-quantity`. -/
def deductStep (oid : Nat) (actorId : Option Nat) (memo : List Char)
    (db : DB) (item : OrderItem) : Except Err DB :=
  match item.productId with
  | none => .ok db
  | some pid =>
    (adjust_product_stock db pid (-(item.quantity : Int)) .sale (some oid)
      actorId (some memo) true).map Prod.fst

/-- `deduct_inventory_for_order` (`crud.py` 103-125): a no-op on an order with
no items or with a `sale` entry already recorded; otherwise one `sale` entry
per product-bearing line, `allow_negative` set. -/
def deduct_inventory_for_order (db : DB) (order : Order)
    (actorId : Option Nat) : Except Err DB :=
  if order.items.isEmpty then .ok db
  else if order_has_transactions db order.id .sale then .ok db
  else
    order.items.foldlM
      (deductStep order.id actorId (orderMemo order.orderNumber)) db

/-- Loop body of `restore_inventory_for_order`: lines with no product are
skipped, the rest get a `return` entry with delta `+quantity`. -/
def restoreStep (oid : Nat) (actorId : Option Nat) (memo : List Char)
    (db : DB) (item : OrderItem) : Except Err DB :=
  match item.productId with
  | none => .ok db
  | some pid =>
    (adjust_product_stock db pid (item.quantity : Int) .ret (some oid)
      actorId (some memo) true).map Prod.fst

/-- `restore_inventory_for_order` (`crud.py` 128-154): a no-op on an order with
no items, with no recorded `sale` entry, or with a `return` entry already
recorded; otherwise one `return` entry per product-bearing line. -/
def restore_inventory_for_order (db : DB) (order : Order)
    (actorId : Option Nat) : Except Err DB :=
  if order.items.isEmpty then .ok db
  else if !order_has_transactions db order.id .sale then .ok db
  else if order_has_transactions db order.id .ret then .ok db
  else
    order.items.foldlM
      (restoreStep order.id actorId (orderMemo order.orderNumber)) db

/-- ASCII decimal digit test (`"0" <= c <= "9"`). -/
def isDigitCh (c : Char) : Bool :=
  '0' ≤ c && c ≤ '9'

/-- Value of a decimal digit character, `none` on anything else. -/
def digitVal? (c : Char) : Option Nat :=
  if isDigitCh c then some (c.toNat - 48) else none

/-- Accumulating decimal parse; `none` acc means no digit read yet. -/
def parseDigits : List Char → Option Nat → Option Nat
  | [], acc => acc
  | c :: cs, acc =>
    match digitVal? c with
    | some d => parseDigits cs (some (acc.getD 0 * 10 + d))
    | none => none

/-- Python `int(s)` restricted to plain digit strings, as a partial function:
`none` embeds the `ValueError` on an empty or non-digit string.  (Full `int()`
also strips signs/whitespace; every string this code feeds it is produced by
its own `"-"`-split of an order number, where the difference is unobservable
in the states the theorems quantify over.) -/
def parseNat? (s : List Char) : Option Nat :=
  parseDigits s none

/-- The third component of Python `s.rpartition("-")`: the part after the last
dash, the whole string when there is no dash. -/
def afterLastDash (s : List Char) : List Char :=
  (s.reverse.takeWhile (fun c => c ≠ '-')).reverse

/-- The f-string padding `f"\x7bcounter:04d\x7d"`: minimum-width-4 zero-padded
decimal.  Below 10000 that is exactly the four decimal digits; from 10000 on
it is the plain decimal representation. -/
def pad4 (n : Nat) : List Char :=
  if n < 10000 then
    [Nat.digitChar (n / 1000), Nat.digitChar (n / 100 % 10),
     Nat.digitChar (n / 10 % 10), Nat.digitChar (n % 10)]
  else (Nat.repr n).data

/-- Lexicographic string comparison by code point: Python `<` on `str`, and the
ordering a `varchar ORDER BY` uses on these ASCII order numbers. -/
def strLtB : List Char → List Char → Bool
  | _, [] => false
  | [], _ :: _ => true
  | a :: as, b :: bs =>
    if a < b then true else if b < a then false else strLtB as bs

/-- `LIKE "pat%"` for a wildcard-free pattern: prefix test. -/
def hasPfxB : List Char → List Char → Bool
  | [], _ => true
  | _ :: _, [] => false
  | p :: ps, c :: cs => p == c && hasPfxB ps cs

/-- One comparison step of the maximum scan. -/
def lexStep (acc : Option (List Char)) (s : List Char) : Option (List Char) :=
  match acc with
  | none => some s
  | some m => if strLtB m s then some s else some m

/-- `ORDER BY order_number DESC LIMIT 1`: the lexicographically greatest
element, `none` on an empty result set. -/
def lexMax? (l : List (List Char)) : Option (List Char) :=
  l.foldl lexStep none

/-- `_generate_order_number` (`crud.py` 301-318).  `ymd` embeds
`dt.strftime("%Y%m%d")`, `existing` the stored `order_number` column.  Finds
the lexicographically greatest number with the day's `ORD<ymd>-` prefix,
parses the suffix after the last dash, increments it (falling back to 1 when
the parse fails or the day is empty), and formats with `"%04d"` padding. -/
def generate_order_number (existing : List (List Char)) (ymd : List Char) :
    List Char :=
  let pfx := 'O' :: 'R' :: 'D' :: ymd
  let candidates := existing.filter (fun s => hasPfxB (pfx ++ ['-']) s)
  let counter :=
    match lexMax? candidates with
    | some lastNumber =>
      match parseNat? (afterLastDash lastNumber) with
      | some k => k + 1
      | none => 1
    | none => 1
  pfx ++ '-' :: pad4 counter

/-- The spec's order-number format, the anchored regular expression
`ORD\d\x7b8\x7d-\d\x7b4\x7d`: three literal characters, eight digits, a
dash, four digits, end of string. -/
def matchesFormat (s : List Char) : Bool :=
  s.take 3 == "ORD".data
    && ((s.drop 3).take 8).length == 8
    && ((s.drop 3).take 8).all isDigitCh
    && (s.drop 11).take 1 == ['-']
    && (s.drop 12).length == 4
    && (s.drop 12).all isDigitCh

/-- The order number with day part `ymd` and counter `k`. -/
def numFor (ymd : List Char) (k : Nat) : List Char :=
  'O' :: 'R' :: 'D' :: ymd ++ '-' :: pad4 k

/-- The numbers allocated by `n` successive non-concurrent order creations on
the same day: each allocation sees the previously inserted numbers. -/
def allocSeq (existing : List (List Char)) (ymd : List Char) : Nat → List (List Char)
  | 0 => []
  | n + 1 =>
    let x := generate_order_number existing ymd
    x :: allocSeq (existing ++ [x]) ymd n

/-- An eight-digit day part, as `strftime("%Y%m%d")` produces. -/
def ymdOkB (ymd : List Char) : Bool :=
  ymd.length == 8 && ymd.all isDigitCh

/-- A well-formed day state: every stored number carrying the day's prefix is
`ORD<ymd>-<pad4 k>` for some counter `1 ≤ k ≤ m`, and (unless the day is
empty, `m = 0`) the number with counter `m` is present. -/
def GoodState (existing : List (List Char)) (ymd : List Char) (m : Nat) : Prop :=
  (∀ s ∈ existing, hasPfxB ('O' :: 'R' :: 'D' :: ymd ++ ['-']) s = true →
      ∃ k, 1 ≤ k ∧ k ≤ m ∧ s = numFor ymd k) ∧
  (m = 0 ∨ numFor ymd m ∈ existing)

/-- The `assigned_to` existence check shared by order create/update
(`session.get(User, ...)`, error on a dangling id; absent or null ids are not
checked). -/
def checkAssigned (db : DB) (a : Option Nat) : Except Err Unit :=
  match a with
  | some uid => if db.users.contains uid then .ok () else .error .assignedUserNotFound
  | none => .ok ()

/-- The pricing loop of `create_order` (`crud.py` 530-549): resolve each
product (error when missing), snapshot name and price, set
`total_price = unit_price * quantity`, and accumulate the subtotal. -/
def priceItems (db : DB) : List OrderItemCreate → Except Err (List OrderItem × ℚ)
  | [] => .ok ([], 0)
  | it :: rest =>
    match findProduct db.products it.productId with
    | none => .error .productNotFound
    | some product =>
      let unitPrice := product.price
      let totalPrice := unitPrice * (it.quantity : ℚ)
      (priceItems db rest).map
        (fun r =>
          ({ productId := some product.id, productName := product.name,
             quantity := it.quantity, unitPrice := unitPrice,
             totalPrice := totalPrice } :: r.1, totalPrice + r.2))

/-- The order row a successful `create_order` builds, given the priced lines
and subtotal. -/
def builtOrder (db : DB) (oin : OrderCreate) (createdBy : Option Nat)
    (now : Nat) (ymd : List Char) (oid : Nat) (items : List OrderItem)
    (sub : ℚ) : Order :=
  { id := oid, customerId := oin.customerId,
    orderNumber :=
      generate_order_number (db.orders.map (fun x => x.orderNumber)) ymd,
    status := oin.status, items := items, subtotal := sub,
    discountTotal := oin.discountTotal, taxTotal := oin.taxTotal,
    shippingFee := oin.shippingFee,
    grandTotal := sub - oin.discountTotal + oin.taxTotal + oin.shippingFee,
    confirmedAt := none, paidAt := none, fulfilledAt := none,
    cancelledAt := none, assignedTo := oin.assignedTo, createdBy := createdBy,
    updatedBy := none, createdAt := now, updatedAt := now }

/-- `create_order` (`crud.py` 515-591).  `now` is the creation instant, `ymd`
its `strftime("%Y%m%d")` day part, `oid` the freshly drawn primary key.
Checks follow the source order: customer, non-empty items, per-line product
resolution, non-negative grand total, assignee; then the order row and its
lines are persisted and, when the initial status is a committed one,
inventory is deducted. -/
def create_order (db : DB) (oin : OrderCreate) (createdBy : Option Nat)
    (now : Nat) (ymd : List Char) (oid : Nat) : Except Err (DB × Order) :=
  if !db.customers.contains oin.customerId then .error .customerNotFound
  else if oin.items.isEmpty then .error .itemsRequired
  else
    match priceItems db oin.items with
    | .error e => .error e
    | .ok (items, subtotal) =>
      let grandTotal :=
        subtotal - oin.discountTotal + oin.taxTotal + oin.shippingFee
      if grandTotal < 0 then .error .negativeGrandTotal
      else
        match checkAssigned db oin.assignedTo with
        | .error e => .error e
        | .ok _ =>
          let order := builtOrder db oin createdBy now ymd oid items subtotal
          let db1 := { db with orders := db.orders ++ [order] }
          if requires_inventory_deduction order.status then
            (deduct_inventory_for_order db1 order createdBy).map
              (fun db2 => (db2, order))
          else .ok (db1, order)

/-- `STATUS_TIMESTAMP_MAP` plus the `setattr` of `update_order` (`crud.py`
594-626): stamp the lifecycle timestamp of the status carried by the payload;
`draft` has no entry in the map. -/
def stampStatusTime (o : Order) (s : OrderStatus) (now : Nat) : Order :=
  match s with
  | .confirmed => { o with confirmedAt := some now }
  | .paid => { o with paidAt := some now }
  | .fulfilled => { o with fulfilledAt := some now }
  | .cancelled => { o with cancelledAt := some now }
  | .draft => o

/-- Persist the updated order row over its old version. -/
def replaceOrder (os : List Order) (o : Order) : List Order :=
  os.map (fun x => if x.id == o.id then o else x)

/-- `model_dump(exclude_unset=true)` produced an empty dict. -/
def OrderUpdate.isEmptyPayload (u : OrderUpdate) : Bool :=
  u.status.isNone && u.assignedTo.isNone && u.discountTotal.isNone &&
    u.taxTotal.isNone && u.shippingFee.isNone && u.notes.isNone

/-- `update_order` (`crud.py` 602-669): early return on an empty payload;
assignee check; unconditional timestamp stamp for a payload-carried status;
partial field application; grand-total recomputation from the existing lines
(the stored `subtotal` column is not rewritten, matching the source); then
the inventory hook decided by committed-ness of the previous and target
statuses. -/
def update_order (db : DB) (dbOrder : Order) (u : OrderUpdate)
    (updatedBy : Option Nat) (now : Nat) : Except Err (DB × Order) :=
  if u.isEmptyPayload then .ok (db, dbOrder)
  else
    let previousStatus := dbOrder.status
    let targetStatus := u.status.getD previousStatus
    match checkAssigned db u.assignedTo with
    | .error e => .error e
    | .ok _ =>
      let o1 :=
        match u.status with
        | some s => stampStatusTime dbOrder s now
        | none => dbOrder
      let o2 : Order :=
        { o1 with
          status := u.status.getD o1.status,
          assignedTo :=
            match u.assignedTo with
            | some a => some a
            | none => o1.assignedTo,
          discountTotal := u.discountTotal.getD o1.discountTotal,
          taxTotal := u.taxTotal.getD o1.taxTotal,
          shippingFee := u.shippingFee.getD o1.shippingFee,
          updatedBy := updatedBy, updatedAt := now }
      let subtotal := (o2.items.map (·.totalPrice)).sum
      let discountTotal := u.discountTotal.getD o2.discountTotal
      let taxTotal := u.taxTotal.getD o2.taxTotal
      let shippingFee := u.shippingFee.getD o2.shippingFee
      let grandTotal := subtotal - discountTotal + taxTotal + shippingFee
      if grandTotal < 0 then .error .negativeGrandTotal
      else
        let o3 := { o2 with grandTotal := grandTotal }
        let db1 := { db with orders := replaceOrder db.orders o3 }
        let needsBefore := requires_inventory_deduction previousStatus
        let needsAfter := requires_inventory_deduction targetStatus
        if !needsBefore && needsAfter then
          (deduct_inventory_for_order db1 o3 updatedBy).map (fun db2 => (db2, o3))
        else if needsBefore && !needsAfter then
          (restore_inventory_for_order db1 o3 updatedBy).map (fun db2 => (db2, o3))
        else .ok (db1, o3)

/-- `delete_order` (`crud.py` 672-675): unconditionally attempt the restore,
then delete the order row; its lines go with it (cascade) and ledger rows
pointing at it get `order_id` nulled (`ondelete="SET NULL"`). -/
def delete_order (db : DB) (dbOrder : Order) : Except Err DB :=
  (restore_inventory_for_order db dbOrder none).map
    (fun db1 =>
      { db1 with
        orders := db1.orders.filter (fun o => !(o.id == dbOrder.id)),
        ledger := db1.ledger.map
          (fun t =>
            if t.orderId == some dbOrder.id then { t with orderId := none }
            else t) })

/-- `delete_product` (`crud.py` 402-404) with the FK actions declared in
`app/models.py`: ledger rows of the product are cascade-deleted, order lines
referencing it keep living with `product_id` nulled. -/
def delete_product (db : DB) (p : Product) : DB :=
  { db with
    products := db.products.filter (fun q => !(q.id == p.id)),
    ledger := db.ledger.filter (fun t => !(t.productId == p.id)),
    orders := db.orders.map
      (fun o =>
        { o with
          items := o.items.map
            (fun it =>
              if it.productId == some p.id then { it with productId := none }
              else it) }) }

/-- `InventoryAdjustmentCreate.validate_quantity` (`models.py` 607-617):
the only payload validation on the adjustment quantity. -/
def validate_quantity (value : Int) : Except Err Int :=
  if value == 0 then .error .zeroQuantity else .ok value

/-- `create_inventory_adjustment` (`crud.py` 678-695): delegate to the stock
ledger with type `adjustment`, no order linkage, `allow_negative` set. -/
def create_inventory_adjustment (db : DB) (adj : InventoryAdjustmentCreate)
    (actorId : Option Nat) : Except Err (DB × Tx) :=
  adjust_product_stock db adj.productId adj.quantity .adjustment none actorId
    adj.memo true

/-- The `POST /inventory/adjustments` entry point
(`api/routes/inventory.py`): payload validation, then the CRUD call. -/
def adjustment_endpoint (db : DB) (adj : InventoryAdjustmentCreate)
    (actorId : Option Nat) : Except Err (DB × Tx) :=
  match validate_quantity adj.quantity with
  | .error e => .error e
  | .ok _ => create_inventory_adjustment db adj actorId

/-- Current stock of a product id, `none` when the product does not exist. -/
def stockOf (db : DB) (pid : Nat) : Option Int :=
  (findProduct db.products pid).map (·.stock)

/-- Total quantity the lines of an order hold against one product id. -/
def linkedQty (items : List OrderItem) (pid : Nat) : Int :=
  ((items.filter (fun it => it.productId == some pid)).map
    (fun it => (it.quantity : Int))).sum

/-- The `sale` entry the deduction loop writes for a product-bearing line. -/
def saleTx? (oid : Nat) (actorId : Option Nat) (memo : List Char)
    (it : OrderItem) : Option Tx :=
  it.productId.map
    (fun pid =>
      { productId := pid, orderId := some oid, type := .sale,
        quantity := -(it.quantity : Int), actorId := actorId,
        memo := some memo })

/-- The `return` entry the restore loop writes for a product-bearing line. -/
def retTx? (oid : Nat) (actorId : Option Nat) (memo : List Char)
    (it : OrderItem) : Option Tx :=
  it.productId.map
    (fun pid =>
      { productId := pid, orderId := some oid, type := .ret,
        quantity := (it.quantity : Int), actorId := actorId,
        memo := some memo })

/-! ### Basic lemmas about the stock ledger -/

lemma id_setStock (p : Product) (pid : Nat) (s : Int) :
    (if p.id == pid then { p with stock := s } else p).id = p.id := by
  split <;> rfl

lemma findProduct_setProductStock (ps : List Product) (pid : Nat) (s : Int)
    (q : Nat) :
    findProduct (setProductStock ps pid s) q
      = (findProduct ps q).map
          (fun p => if p.id == pid then { p with stock := s } else p) := by
  induction ps with
  | nil => rfl
  | cons p ps ih =>
    simp only [setProductStock, List.map_cons] at *
    rw [findProduct, findProduct, id_setStock]
    by_cases hq : (p.id == q) = true
    · simp [hq]
    · simp only [hq, Bool.false_eq_true, if_false]
      exact ih

lemma findProduct_id {ps : List Product} {pid : Nat} {p : Product}
    (h : findProduct ps pid = some p) : p.id = pid := by
  induction ps with
  | nil => exact absurd h (by simp [findProduct])
  | cons q ps ih =>
    rw [findProduct] at h
    by_cases hq : (q.id == pid) = true
    · simp only [hq, if_true, Option.some.injEq] at h
      subst h
      exact beq_iff_eq.mp hq
    · simp only [hq, Bool.false_eq_true, if_false] at h
      exact ih h

/-- Characterisation of `adjust_product_stock` in the successful case. -/
lemma adjust_ok {db : DB} {pid : Nat} {p : Product} (delta : Int) (ty : TxType)
    (oid aid : Option Nat) (memo : Option (List Char)) (allowNeg : Bool)
    (hp : findProduct db.products pid = some p)
    (hcond : allowNeg = true ∨ 0 ≤ p.stock + delta) :
    adjust_product_stock db pid delta ty oid aid memo allowNeg =
      .ok ({ db with
              products := setProductStock db.products pid (p.stock + delta),
              ledger := db.ledger ++
                [{ productId := pid, orderId := oid, type := ty,
                   quantity := delta, actorId := aid, memo := memo }] },
           { productId := pid, orderId := oid, type := ty, quantity := delta,
             actorId := aid, memo := memo }) := by
  unfold adjust_product_stock
  rw [hp]
  have hfalse : (!allowNeg && decide (p.stock + delta < 0)) = false := by
    rcases hcond with h | h
    · simp [h]
    · simp [not_lt.mpr h]
  simp only [hfalse, Bool.false_eq_true, if_false]

lemma stockOf_adjust_self {db db' : DB} {pid : Nat} {p : Product} {tx : Tx}
    {delta : Int} {ty : TxType} {oid aid : Option Nat}
    {memo : Option (List Char)} {allowNeg : Bool}
    (hp : findProduct db.products pid = some p)
    (h : adjust_product_stock db pid delta ty oid aid memo allowNeg
          = .ok (db', tx)) :
    stockOf db' pid = some (p.stock + delta) := by
  unfold adjust_product_stock at h
  rw [hp] at h
  by_cases hc : (!allowNeg && decide (p.stock + delta < 0)) = true
  · simp only [hc, if_true] at h
    exact absurd h (by simp)
  · simp only [Bool.not_eq_true] at hc
    simp only [hc, Bool.false_eq_true, if_false, Except.ok.injEq, Prod.mk.injEq] at h
    obtain ⟨hdb, -⟩ := h
    subst hdb
    unfold stockOf
    simp only [findProduct_setProductStock, hp, Option.map_some']
    simp [beq_iff_eq, findProduct_id hp]

lemma findProduct_set_other (ps : List Product) (pid : Nat) (s : Int) (q : Nat)
    (hne : q ≠ pid) :
    findProduct (setProductStock ps pid s) q = findProduct ps q := by
  rw [findProduct_setProductStock]
  cases hfp : findProduct ps q with
  | none => rfl
  | some p =>
    have : p.id = q := findProduct_id hfp
    simp [this, hne]

lemma findProduct_set_isSome (ps : List Product) (pid : Nat) (s : Int) (q : Nat) :
    (findProduct (setProductStock ps pid s) q).isSome
      = (findProduct ps q).isSome := by
  rw [findProduct_setProductStock]
  cases findProduct ps q <;> rfl

/-! ### Sample fixtures used by witnesses and counterexamples -/

def fxProduct : Product :=
  { id := 1, name := "widget".data, price := 5, stock := 10 }

def fxProduct2 : Product :=
  { id := 2, name := "gadget".data, price := 3, stock := 8 }

def fxDb : DB :=
  { products := [fxProduct, fxProduct2], orders := [], ledger := [],
    customers := [7], users := [4] }

/-! ### C4: adjust_product_stock error and success behaviour -/

/-- Claim C4: `adjust_product_stock` fails with `NotFound` when the product is
missing; with `allowNegative` unset it fails with `InsufficientStock` whenever
`currentStock + delta < 0` — an error result carries no state, so the stock
stays untouched and no ledger entry appears — and otherwise it sets the stock
to `currentStock + delta`, appends exactly one ledger entry carrying the exact
delta, type and optional order/actor/memo linkage, returns that entry, and
leaves every other product's stock and all other tables unchanged. -/
theorem adjust_product_stock_spec (db : DB) (pid : Nat) (delta : Int)
    (ty : TxType) (oid aid : Option Nat) (memo : Option (List Char))
    (allowNeg : Bool) :
    (findProduct db.products pid = none →
      adjust_product_stock db pid delta ty oid aid memo allowNeg
        = .error .productNotFound) ∧
    (∀ p, findProduct db.products pid = some p → allowNeg = false →
      p.stock + delta < 0 →
      adjust_product_stock db pid delta ty oid aid memo allowNeg
        = .error .insufficientStock) ∧
    (∀ p, findProduct db.products pid = some p →
      (allowNeg = true ∨ 0 ≤ p.stock + delta) →
      ∀ db' tx,
        adjust_product_stock db pid delta ty oid aid memo allowNeg
          = .ok (db', tx) →
        tx = { productId := pid, orderId := oid, type := ty, quantity := delta,
               actorId := aid, memo := memo } ∧
        db'.ledger = db.ledger ++ [tx] ∧
        stockOf db' pid = some (p.stock + delta) ∧
        (∀ q, q ≠ pid → stockOf db' q = stockOf db q) ∧
        db'.orders = db.orders ∧ db'.customers = db.customers ∧
        db'.users = db.users) := by
  refine ⟨?_, ?_, ?_⟩
  · intro hnone
    unfold adjust_product_stock
    rw [hnone]
  · intro p hp hneg hlt
    unfold adjust_product_stock
    rw [hp]
    simp [hneg, hlt]
  · intro p hp hcond db' tx hok
    rw [adjust_ok delta ty oid aid memo allowNeg hp hcond] at hok
    obtain ⟨hdb, htx⟩ := Prod.mk.injEq _ _ _ _ ▸ (Except.ok.injEq _ _ ▸ hok)
    subst hdb
    subst htx
    refine ⟨rfl, rfl, ?_, ?_, rfl, rfl, rfl⟩
    · unfold stockOf
      simp only [findProduct_setProductStock, hp, Option.map_some']
      simp [findProduct_id hp]
    · intro q hq
      unfold stockOf
      simp only [findProduct_set_other db.products pid _ q hq]

/-- Witness for C4 at concrete inputs: product 1 exists with stock 10, so a
delta of −11 with `allowNegative` unset is refused, and a missing product 3 is
reported. -/
theorem adjust_product_stock_spec_witness :
    adjust_product_stock fxDb 1 (-11) .adjustment none none none false
        = .error .insufficientStock ∧
    adjust_product_stock fxDb 3 1 .adjustment none none none false
        = .error .productNotFound := by
  constructor
  · exact (adjust_product_stock_spec fxDb 1 (-11) .adjustment none none none
      false).2.1 fxProduct (by decide) rfl (by decide)
  · exact (adjust_product_stock_spec fxDb 3 1 .adjustment none none none
      false).1 (by decide)

/-! ### C9: validation of manual adjustment quantities -/

/-- Counterexample to claim C9: the adjustment validator accepts the negative
quantity −1, and the adjustment entry point then applies it, appending a
ledger entry and lowering product 1's stock from 10 to 9 — so non-positive
quantities are not rejected, only zero is. -/
theorem adjustment_quantity_counterexample :
    validate_quantity (-1) = .ok (-1) ∧
    (adjustment_endpoint fxDb { productId := 1, quantity := -1, memo := none }
        (some 4)).toOption.map
      (fun r => (r.1.ledger.length, stockOf r.1 1))
        = some (1, some 9) := by
  constructor
  · rfl
  · rfl

/-- Claim C9 as amended: the adjustment validator rejects exactly the zero
quantity (`InvalidOrder`-class error), in which case the entry point creates
no ledger entry; any non-zero quantity, negative ones included, passes
validation. -/
theorem adjustment_quantity_corrected :
    (∀ q : Int, validate_quantity q = .error .zeroQuantity ↔ q = 0) ∧
    (∀ (db : DB) (adj : InventoryAdjustmentCreate) (actor : Option Nat),
      adj.quantity = 0 →
      adjustment_endpoint db adj actor = .error .zeroQuantity) ∧
    (∀ q : Int, q ≠ 0 → validate_quantity q = .ok q) := by
  refine ⟨?_, ?_, ?_⟩
  · intro q
    unfold validate_quantity
    by_cases h : q = 0
    · simp [h]
    · simp [h]
  · intro db adj actor h
    unfold adjustment_endpoint validate_quantity
    simp [h]
  · intro q h
    unfold validate_quantity
    simp [h]

/-- Witness for C9 (amended) at concrete inputs. -/
theorem adjustment_quantity_corrected_witness :
    adjustment_endpoint fxDb { productId := 1, quantity := 0, memo := none }
        (some 4) = .error .zeroQuantity ∧
    validate_quantity 3 = .ok 3 :=
  ⟨adjustment_quantity_corrected.2.1 fxDb
      { productId := 1, quantity := 0, memo := none } (some 4) rfl,
    adjustment_quantity_corrected.2.2 3 (by decide)⟩

/-! ### C10: manual adjustments always permit negative stock -/

/-- Claim C10: the adjustment entry point never fails with
`InsufficientStock`; an accepted adjustment (non-zero quantity, existing
product) is applied with negative stock permitted, persisting
`stock + quantity` — below zero included — and appending exactly one
ledger entry of type `adjustment`. -/
theorem adjustment_allow_negative :
    (∀ (db : DB) (adj : InventoryAdjustmentCreate) (actor : Option Nat),
      adjustment_endpoint db adj actor ≠ .error .insufficientStock) ∧
    (∀ (db : DB) (adj : InventoryAdjustmentCreate) (actor : Option Nat)
        (p : Product),
      adj.quantity ≠ 0 → findProduct db.products adj.productId = some p →
      ∀ db' tx, adjustment_endpoint db adj actor = .ok (db', tx) →
        stockOf db' adj.productId = some (p.stock + adj.quantity) ∧
        db'.ledger = db.ledger ++ [tx] ∧
        tx.type = .adjustment ∧ tx.quantity = adj.quantity ∧
        tx.productId = adj.productId ∧ tx.orderId = none ∧
        tx.actorId = actor ∧ tx.memo = adj.memo) ∧
    (∀ (db : DB) (adj : InventoryAdjustmentCreate) (actor : Option Nat)
        (p : Product),
      adj.quantity ≠ 0 → findProduct db.products adj.productId = some p →
      ∃ db' tx, adjustment_endpoint db adj actor = .ok (db', tx)) := by
  have hok : ∀ (db : DB) (adj : InventoryAdjustmentCreate)
      (actor : Option Nat) (p : Product),
      adj.quantity ≠ 0 → findProduct db.products adj.productId = some p →
      adjustment_endpoint db adj actor =
        .ok ({ db with
                products := setProductStock db.products adj.productId
                  (p.stock + adj.quantity),
                ledger := db.ledger ++
                  [{ productId := adj.productId, orderId := none,
                     type := .adjustment, quantity := adj.quantity,
                     actorId := actor, memo := adj.memo }] },
             { productId := adj.productId, orderId := none,
               type := .adjustment, quantity := adj.quantity,
               actorId := actor, memo := adj.memo }) := by
    intro db adj actor p hq hp
    unfold adjustment_endpoint validate_quantity
    simp only [beq_iff_eq, hq, if_false]
    unfold create_inventory_adjustment
    exact adjust_ok adj.quantity .adjustment none actor adj.memo true hp
      (Or.inl rfl)
  refine ⟨?_, ?_, ?_⟩
  · intro db adj actor
    unfold adjustment_endpoint validate_quantity
    by_cases hq : (adj.quantity == 0) = true
    · simp [hq]
    · simp only [hq, Bool.false_eq_true, if_false]
      unfold create_inventory_adjustment adjust_product_stock
      cases findProduct db.products adj.productId with
      | none => simp
      | some p => simp
  · intro db adj actor p hq hp db' tx hres
    rw [hok db adj actor p hq hp] at hres
    obtain ⟨hdb, htx⟩ := Prod.mk.injEq _ _ _ _ ▸ (Except.ok.injEq _ _ ▸ hres)
    subst hdb
    subst htx
    refine ⟨?_, rfl, rfl, rfl, rfl, rfl, rfl, rfl⟩
    unfold stockOf
    simp only [findProduct_setProductStock, hp, Option.map_some']
    simp [findProduct_id hp]
  · intro db adj actor p hq hp
    exact ⟨_, _, hok db adj actor p hq hp⟩

/-- Witness for C10 at a concrete input that drives stock negative: product 1
holds stock 10, the adjustment of −25 is applied and −15 is persisted. -/
theorem adjustment_allow_negative_witness :
    (adjustment_endpoint fxDb
        { productId := 1, quantity := -25, memo := none } (some 4)
      ≠ .error .insufficientStock) ∧
    (∃ db' tx, adjustment_endpoint fxDb
        { productId := 1, quantity := -25, memo := none } (some 4)
          = .ok (db', tx)) ∧
    (adjustment_endpoint fxDb
        { productId := 1, quantity := -25, memo := none } (some 4)).toOption.map
      (fun r => stockOf r.1 1) = some (some (-15)) := by
  refine ⟨adjustment_allow_negative.1 fxDb
      { productId := 1, quantity := -25, memo := none } (some 4), ?_, ?_⟩
  · exact adjustment_allow_negative.2.2 fxDb
      { productId := 1, quantity := -25, memo := none } (some 4) fxProduct
      (by decide) rfl
  · rfl

/-! ### C8: transitions that stay on one side of committed-ness leave
inventory alone -/

/-- Claim C8: whenever the previous status and the target status of an
`update_order` call are both committed (confirmed/paid/fulfilled) or both
non-committed (draft/cancelled), a successful update appends no ledger entry
and leaves every product — in particular every stock value — unchanged. -/
theorem update_order_frame (db : DB) (o : Order) (u : OrderUpdate)
    (ub : Option Nat) (now : Nat)
    (hsame :
      (requires_inventory_deduction o.status = true ∧
        requires_inventory_deduction (u.status.getD o.status) = true) ∨
      (requires_inventory_deduction o.status = false ∧
        requires_inventory_deduction (u.status.getD o.status) = false))
    (db' : DB) (o' : Order)
    (hok : update_order db o u ub now = .ok (db', o')) :
    db'.ledger = db.ledger ∧ db'.products = db.products ∧
    (∀ pid, stockOf db' pid = stockOf db pid) := by
  have hsame' : requires_inventory_deduction o.status
      = requires_inventory_deduction (u.status.getD o.status) := by
    rcases hsame with ⟨h1, h2⟩ | ⟨h1, h2⟩ <;> rw [h1, h2]
  have main : db'.ledger = db.ledger ∧ db'.products = db.products := by
    unfold update_order at hok
    by_cases hemp : u.isEmptyPayload = true
    · rw [if_pos hemp] at hok
      obtain ⟨h1, h2⟩ := Prod.mk.injEq _ _ _ _ ▸ (Except.ok.injEq _ _ ▸ hok.symm)
      subst h1
      exact ⟨rfl, rfl⟩
    · rw [if_neg hemp] at hok
      cases hca : checkAssigned db u.assignedTo with
      | error e => rw [hca] at hok; exact absurd hok (by simp)
      | ok uu =>
        rw [hca] at hok
        simp only [] at hok
        rw [hsame'] at hok
        split at hok
        · exact absurd hok (by simp)
        · split at hok
          · rename_i hcond
            simp at hcond
          · split at hok
            · rename_i hcond
              simp at hcond
            · obtain ⟨h1, h2⟩ :=
                Prod.mk.injEq _ _ _ _ ▸ (Except.ok.injEq _ _ ▸ hok.symm)
              subst h1
              exact ⟨rfl, rfl⟩
  refine ⟨main.1, main.2, fun pid => ?_⟩
  unfold stockOf
  rw [main.2]

/-! ### Fixtures for the update_order claims -/

def fxOrder6 : Order :=
  { id := 21, customerId := 7, orderNumber := "ORD20250101-0001".data,
    status := .confirmed, items := [], subtotal := 0, discountTotal := 0,
    taxTotal := 0, shippingFee := 0, grandTotal := 0, confirmedAt := some 5,
    paidAt := none, fulfilledAt := none, cancelledAt := none,
    assignedTo := none, createdBy := none, updatedBy := none, createdAt := 1,
    updatedAt := 1 }

def fxDb6 : DB :=
  { products := [fxProduct, fxProduct2], orders := [fxOrder6],
    ledger := [], customers := [7], users := [4] }

/-- Payload carrying only `status = confirmed` — the status the order already
holds. -/
def fxUpdConfirmed : OrderUpdate :=
  { status := some .confirmed, assignedTo := none, discountTotal := none,
    taxTotal := none, shippingFee := none, notes := none }

/-- Payload carrying only `status = paid`. -/
def fxUpdPaid : OrderUpdate :=
  { status := some .paid, assignedTo := none, discountTotal := none,
    taxTotal := none, shippingFee := none, notes := none }

attribute [local semireducible] Rat.add Rat.sub Rat.mul Rat.inv in
set_option maxRecDepth 100000 in
/-- Witness for C8: the committed→committed transition confirmed→paid on a
concrete order touches neither ledger nor products. -/
theorem update_order_frame_witness :
    (update_order fxDb6 fxOrder6 fxUpdPaid none 9 =
      .ok ({ fxDb6 with
              orders := [{ fxOrder6 with
                status := .paid, paidAt := some 9, updatedAt := 9 }] },
           { fxOrder6 with
              status := .paid, paidAt := some 9, updatedAt := 9 })) ∧
    ({ fxDb6 with
        orders := [{ fxOrder6 with
          status := .paid, paidAt := some 9, updatedAt := 9 }] } : DB).ledger
        = fxDb6.ledger ∧
    ({ fxDb6 with
        orders := [{ fxOrder6 with
          status := .paid, paidAt := some 9, updatedAt := 9 }] } : DB).products
        = fxDb6.products := by
  have hok : update_order fxDb6 fxOrder6 fxUpdPaid none 9 =
      .ok ({ fxDb6 with
              orders := [{ fxOrder6 with
                status := .paid, paidAt := some 9, updatedAt := 9 }] },
           { fxOrder6 with
              status := .paid, paidAt := some 9, updatedAt := 9 }) := rfl
  have h := update_order_frame fxDb6 fxOrder6 fxUpdPaid none 9
    (Or.inl ⟨rfl, rfl⟩) _ _ hok
  exact ⟨hok, h.1, h.2.1⟩

/-! ### C6: lifecycle timestamps -/

attribute [local semireducible] Rat.add Rat.sub Rat.mul Rat.inv in
set_option maxRecDepth 100000 in
/-- Counterexample to claim C6: the order already holds status `confirmed`
with `confirmed_at = 5`; an update whose payload carries that same status
overwrites the stored timestamp with the update time 9.  The timestamp is not
"set only once, at the first update that enters the status". -/
theorem lifecycle_timestamp_counterexample :
    fxOrder6.status = .confirmed ∧ fxOrder6.confirmedAt = some 5 ∧
    fxUpdConfirmed.status = some .confirmed ∧
    (update_order fxDb6 fxOrder6 fxUpdConfirmed none 9).toOption.map
      (fun r => r.2.confirmedAt) = some (some 9) := by
  exact ⟨rfl, rfl, rfl, rfl⟩

/-- Claim C6 as amended: a successful `update_order` stamps the lifecycle
timestamp of exactly the status carried by the payload — with the update time,
overwriting any previously stored value, whether or not the status changes —
and leaves the other three timestamps (and all four when no status is
carried, `draft` having no timestamp) at their previous values. -/
theorem lifecycle_timestamp_corrected (db : DB) (o : Order) (u : OrderUpdate)
    (ub : Option Nat) (now : Nat) (db' : DB) (o' : Order)
    (hok : update_order db o u ub now = .ok (db', o')) :
    o'.confirmedAt
      = (if u.status = some .confirmed then some now else o.confirmedAt) ∧
    o'.paidAt = (if u.status = some .paid then some now else o.paidAt) ∧
    o'.fulfilledAt
      = (if u.status = some .fulfilled then some now else o.fulfilledAt) ∧
    o'.cancelledAt
      = (if u.status = some .cancelled then some now else o.cancelledAt) := by
  unfold update_order at hok
  by_cases hemp : u.isEmptyPayload = true
  · rw [if_pos hemp] at hok
    have hst : u.status = none := by
      unfold OrderUpdate.isEmptyPayload at hemp
      simp only [Bool.and_eq_true, Option.isNone_iff_eq_none] at hemp
      exact hemp.1.1.1.1.1
    obtain ⟨h1, h2⟩ := Prod.mk.injEq _ _ _ _ ▸ (Except.ok.injEq _ _ ▸ hok.symm)
    subst h2
    simp [hst]
  · rw [if_neg hemp] at hok
    cases hca : checkAssigned db u.assignedTo with
    | error e => rw [hca] at hok; exact absurd hok (by simp)
    | ok uu =>
      rw [hca] at hok
      simp only [] at hok
      -- in every remaining branch the returned order is `o3`, whose
      -- timestamp fields come unchanged from the stamped order `o1`
      split at hok
      · exact absurd hok (by simp)
      · split at hok
        · cases hded : deduct_inventory_for_order _ _ _ with
          | error e =>
            rw [hded] at hok
            exact absurd hok (by simp [Except.map])
          | ok db2 =>
            rw [hded] at hok
            simp only [Except.map] at hok
            obtain ⟨h1, h2⟩ :=
              Prod.mk.injEq _ _ _ _ ▸ (Except.ok.injEq _ _ ▸ hok.symm)
            subst h2
            cases hu : u.status with
            | none => simp [hu]
            | some s => cases s <;> simp [hu, stampStatusTime]
        · split at hok
          · cases hres : restore_inventory_for_order _ _ _ with
            | error e =>
              rw [hres] at hok
              exact absurd hok (by simp [Except.map])
            | ok db2 =>
              rw [hres] at hok
              simp only [Except.map] at hok
              obtain ⟨h1, h2⟩ :=
                Prod.mk.injEq _ _ _ _ ▸ (Except.ok.injEq _ _ ▸ hok.symm)
              subst h2
              cases hu : u.status with
              | none => simp [hu]
              | some s => cases s <;> simp [hu, stampStatusTime]
          · obtain ⟨h1, h2⟩ :=
              Prod.mk.injEq _ _ _ _ ▸ (Except.ok.injEq _ _ ▸ hok.symm)
            subst h2
            cases hu : u.status with
            | none => simp [hu]
            | some s => cases s <;> simp [hu, stampStatusTime]

attribute [local semireducible] Rat.add Rat.sub Rat.mul Rat.inv in
set_option maxRecDepth 100000 in
/-- Witness for C6 (amended): on the concrete confirmed order, the update
carrying `status = paid` stamps `paid_at` with the update time and leaves the
other timestamps alone. -/
theorem lifecycle_timestamp_corrected_witness :
    ({ fxOrder6 with
        status := .paid, paidAt := some 9, updatedAt := 9 } : Order).paidAt
      = (if fxUpdPaid.status = some .paid then some 9 else fxOrder6.paidAt) ∧
    ({ fxOrder6 with
        status := .paid, paidAt := some 9, updatedAt := 9 } : Order).confirmedAt
      = (if fxUpdPaid.status = some .confirmed then some 9
         else fxOrder6.confirmedAt) := by
  have h := lifecycle_timestamp_corrected fxDb6 fxOrder6 fxUpdPaid none 9
    { fxDb6 with
        orders := [{ fxOrder6 with
          status := .paid, paidAt := some 9, updatedAt := 9 }] }
    { fxOrder6 with status := .paid, paidAt := some 9, updatedAt := 9 }
    rfl
  exact ⟨h.2.1, h.1⟩

/-! ### The deduction/restore loops -/

lemma linkedQty_nil (q : Nat) : linkedQty [] q = 0 := rfl

lemma linkedQty_cons (it : OrderItem) (items : List OrderItem) (q : Nat) :
    linkedQty (it :: items) q
      = (if it.productId == some q then (it.quantity : Int) else 0)
          + linkedQty items q := by
  unfold linkedQty
  by_cases h : (it.productId == some q) = true
  · simp [List.filter_cons, h]
  · simp [List.filter_cons, h]

lemma exc_bind_ok {α β : Type} (a : α) (k : α → Except Err β) :
    ((.ok a : Except Err α) >>= k) = k a := rfl

/-- Behaviour of the restore loop on items whose linked products all exist:
it succeeds, appends exactly the `return` entries of the product-bearing
lines, adds each line's quantity back to its product's stock, and touches
nothing else. -/
lemma restore_loop_spec (oid : Nat) (actor : Option Nat) (memo : List Char) :
    ∀ (items : List OrderItem) (db : DB),
      (∀ it ∈ items, ∀ pid, it.productId = some pid →
        (findProduct db.products pid).isSome = true) →
      ∃ db', items.foldlM (restoreStep oid actor memo) db = .ok db' ∧
        db'.ledger = db.ledger ++ items.filterMap (retTx? oid actor memo) ∧
        (∀ q, stockOf db' q
          = (stockOf db q).map (fun s => s + linkedQty items q)) ∧
        db'.orders = db.orders ∧ db'.customers = db.customers ∧
        db'.users = db.users ∧
        (∀ q, (findProduct db'.products q).isSome
          = (findProduct db.products q).isSome) := by
  intro items
  induction items with
  | nil =>
    intro db _
    refine ⟨db, rfl, by simp, ?_, rfl, rfl, rfl, fun q => rfl⟩
    intro q
    rw [linkedQty_nil]
    cases stockOf db q <;> simp
  | cons it rest ih =>
    intro db hlink
    cases hp : it.productId with
    | none =>
      have hstep : restoreStep oid actor memo db it = .ok db := by
        unfold restoreStep
        rw [hp]
      obtain ⟨db', hrun, hled, hstock, hord, hcust, husr, hsome⟩ :=
        ih db (fun it2 h2 pid h3 => hlink it2 (List.mem_cons_of_mem _ h2) pid h3)
      refine ⟨db', ?_, ?_, ?_, hord, hcust, husr, hsome⟩
      · rw [List.foldlM_cons, hstep, exc_bind_ok]
        exact hrun
      · rw [hled]
        simp [List.filterMap_cons, retTx?, hp]
      · intro q
        rw [hstock q, linkedQty_cons, hp]
        simp
    | some pid =>
      have hex : (findProduct db.products pid).isSome = true :=
        hlink it (List.mem_cons_self _ _) pid hp
      obtain ⟨p, hfp⟩ := Option.isSome_iff_exists.mp hex
      have hadj := @adjust_ok db pid p (it.quantity : Int) .ret (some oid)
        actor (some memo) true hfp (Or.inl rfl)
      have hstep : restoreStep oid actor memo db it =
          .ok { db with
                products := setProductStock db.products pid
                  (p.stock + (it.quantity : Int)),
                ledger := db.ledger ++
                  [{ productId := pid, orderId := some oid, type := .ret,
                     quantity := (it.quantity : Int), actorId := actor,
                     memo := some memo }] } := by
        unfold restoreStep
        rw [hp]
        show (adjust_product_stock db pid (it.quantity : Int) .ret (some oid)
          actor (some memo) true).map Prod.fst = _
        rw [hadj]
        rfl
      set db1 : DB :=
        { db with
          products := setProductStock db.products pid
            (p.stock + (it.quantity : Int)),
          ledger := db.ledger ++
            [{ productId := pid, orderId := some oid, type := .ret,
               quantity := (it.quantity : Int), actorId := actor,
               memo := some memo }] } with hdb1
      have hlink1 : ∀ it2 ∈ rest, ∀ pid2, it2.productId = some pid2 →
          (findProduct db1.products pid2).isSome = true := by
        intro it2 h2 pid2 h3
        have : (findProduct db1.products pid2).isSome
            = (findProduct db.products pid2).isSome := by
          rw [hdb1]
          exact findProduct_set_isSome db.products pid _ pid2
        rw [this]
        exact hlink it2 (List.mem_cons_of_mem _ h2) pid2 h3
      obtain ⟨db', hrun, hled, hstock, hord, hcust, husr, hsome⟩ := ih db1 hlink1
      refine ⟨db', ?_, ?_, ?_, ?_, ?_, ?_, ?_⟩
      · rw [List.foldlM_cons, hstep, exc_bind_ok]
        exact hrun
      · rw [hled, hdb1]
        simp [List.filterMap_cons, retTx?, hp]
      · intro q
        rw [hstock q, linkedQty_cons, hp]
        by_cases hq : q = pid
        · subst hq
          have h1 : stockOf db1 q = some (p.stock + (it.quantity : Int)) := by
            unfold stockOf
            rw [hdb1]
            simp only [findProduct_setProductStock, hfp, Option.map_some']
            simp [findProduct_id hfp]
          rw [h1]
          unfold stockOf
          rw [hfp]
          simp only [Option.map_some', beq_iff_eq, if_pos rfl, if_true]
          congr 1
          omega
        · have h1 : stockOf db1 q = stockOf db q := by
            unfold stockOf
            rw [hdb1]
            simp only [findProduct_set_other db.products pid _ q hq]
          rw [h1]
          have hne : (some pid == some q) = false := by
            simp [Ne.symm hq]
          rw [hne]
          cases stockOf db q <;> simp
      · rw [hord, hdb1]
      · rw [hcust, hdb1]
      · rw [husr, hdb1]
      · intro q
        rw [hsome q, hdb1]
        exact findProduct_set_isSome db.products pid _ q

/-- Behaviour of the deduction loop on items whose linked products all exist:
it succeeds, appends exactly the `sale` entries of the product-bearing lines,
subtracts each line's quantity from its product's stock, and touches nothing
else. -/
lemma deduct_loop_spec (oid : Nat) (actor : Option Nat) (memo : List Char) :
    ∀ (items : List OrderItem) (db : DB),
      (∀ it ∈ items, ∀ pid, it.productId = some pid →
        (findProduct db.products pid).isSome = true) →
      ∃ db', items.foldlM (deductStep oid actor memo) db = .ok db' ∧
        db'.ledger = db.ledger ++ items.filterMap (saleTx? oid actor memo) ∧
        (∀ q, stockOf db' q
          = (stockOf db q).map (fun s => s - linkedQty items q)) ∧
        db'.orders = db.orders ∧ db'.customers = db.customers ∧
        db'.users = db.users ∧
        (∀ q, (findProduct db'.products q).isSome
          = (findProduct db.products q).isSome) := by
  intro items
  induction items with
  | nil =>
    intro db _
    refine ⟨db, rfl, by simp, ?_, rfl, rfl, rfl, fun q => rfl⟩
    intro q
    rw [linkedQty_nil]
    cases stockOf db q <;> simp
  | cons it rest ih =>
    intro db hlink
    cases hp : it.productId with
    | none =>
      have hstep : deductStep oid actor memo db it = .ok db := by
        unfold deductStep
        rw [hp]
      obtain ⟨db', hrun, hled, hstock, hord, hcust, husr, hsome⟩ :=
        ih db (fun it2 h2 pid h3 => hlink it2 (List.mem_cons_of_mem _ h2) pid h3)
      refine ⟨db', ?_, ?_, ?_, hord, hcust, husr, hsome⟩
      · rw [List.foldlM_cons, hstep, exc_bind_ok]
        exact hrun
      · rw [hled]
        simp [List.filterMap_cons, saleTx?, hp]
      · intro q
        rw [hstock q, linkedQty_cons, hp]
        simp
    | some pid =>
      have hex : (findProduct db.products pid).isSome = true :=
        hlink it (List.mem_cons_self _ _) pid hp
      obtain ⟨p, hfp⟩ := Option.isSome_iff_exists.mp hex
      have hadj := @adjust_ok db pid p (-(it.quantity : Int)) .sale (some oid)
        actor (some memo) true hfp (Or.inl rfl)
      have hstep : deductStep oid actor memo db it =
          .ok { db with
                products := setProductStock db.products pid
                  (p.stock + -(it.quantity : Int)),
                ledger := db.ledger ++
                  [{ productId := pid, orderId := some oid, type := .sale,
                     quantity := -(it.quantity : Int), actorId := actor,
                     memo := some memo }] } := by
        unfold deductStep
        rw [hp]
        show (adjust_product_stock db pid (-(it.quantity : Int)) .sale (some oid)
          actor (some memo) true).map Prod.fst = _
        rw [hadj]
        rfl
      set db1 : DB :=
        { db with
          products := setProductStock db.products pid
            (p.stock + -(it.quantity : Int)),
          ledger := db.ledger ++
            [{ productId := pid, orderId := some oid, type := .sale,
               quantity := -(it.quantity : Int), actorId := actor,
               memo := some memo }] } with hdb1
      have hlink1 : ∀ it2 ∈ rest, ∀ pid2, it2.productId = some pid2 →
          (findProduct db1.products pid2).isSome = true := by
        intro it2 h2 pid2 h3
        have : (findProduct db1.products pid2).isSome
            = (findProduct db.products pid2).isSome := by
          rw [hdb1]
          exact findProduct_set_isSome db.products pid _ pid2
        rw [this]
        exact hlink it2 (List.mem_cons_of_mem _ h2) pid2 h3
      obtain ⟨db', hrun, hled, hstock, hord, hcust, husr, hsome⟩ := ih db1 hlink1
      refine ⟨db', ?_, ?_, ?_, ?_, ?_, ?_, ?_⟩
      · rw [List.foldlM_cons, hstep, exc_bind_ok]
        exact hrun
      · rw [hled, hdb1]
        simp [List.filterMap_cons, saleTx?, hp]
      · intro q
        rw [hstock q, linkedQty_cons, hp]
        by_cases hq : q = pid
        · subst hq
          have h1 : stockOf db1 q = some (p.stock + -(it.quantity : Int)) := by
            unfold stockOf
            rw [hdb1]
            simp only [findProduct_setProductStock, hfp, Option.map_some']
            simp [findProduct_id hfp]
          rw [h1]
          unfold stockOf
          rw [hfp]
          simp only [Option.map_some', beq_iff_eq, if_pos rfl, if_true]
          congr 1
          omega
        · have h1 : stockOf db1 q = stockOf db q := by
            unfold stockOf
            rw [hdb1]
            simp only [findProduct_set_other db.products pid _ q hq]
          rw [h1]
          have hne : (some pid == some q) = false := by
            simp [Ne.symm hq]
          rw [hne]
          cases stockOf db q <;> simp
      · rw [hord, hdb1]
      · rw [hcust, hdb1]
      · rw [husr, hdb1]
      · intro q
        rw [hsome q, hdb1]
        exact findProduct_set_isSome db.products pid _ q

lemma order_has_transactions_of_fresh (db : DB) (oid : Nat) (ty : TxType)
    (hfresh : ∀ t ∈ db.ledger, t.orderId ≠ some oid) :
    order_has_transactions db oid ty = false := by
  unfold order_has_transactions
  rw [List.any_eq_false]
  intro t ht
  simp only [Bool.and_eq_true, beq_iff_eq, not_and]
  intro hid
  exact absurd hid (hfresh t ht)

/-- `restore_inventory_for_order` is a no-op once no sale is recorded or a
return is already recorded. -/
lemma restore_noop (db : DB) (o : Order) (actor : Option Nat)
    (h : order_has_transactions db o.id .sale = false ∨
      order_has_transactions db o.id .ret = true) :
    restore_inventory_for_order db o actor = .ok db := by
  unfold restore_inventory_for_order
  by_cases he : o.items.isEmpty = true
  · rw [if_pos he]
  · rw [if_neg he]
    rcases h with h | h
    · simp [h]
    · cases hs : order_has_transactions db o.id .sale
      · simp
      · simp [h]

/-- Full behaviour of `restore_inventory_for_order` when a sale is recorded,
no return is recorded yet, and every product still linked by a line exists. -/
lemma restore_spec (db : DB) (o : Order) (actor : Option Nat)
    (hsale : order_has_transactions db o.id .sale = true)
    (hret : order_has_transactions db o.id .ret = false)
    (hlink : ∀ it ∈ o.items, ∀ pid, it.productId = some pid →
      (findProduct db.products pid).isSome = true) :
    ∃ db', restore_inventory_for_order db o actor = .ok db' ∧
      db'.ledger = db.ledger ++
        o.items.filterMap (retTx? o.id actor (orderMemo o.orderNumber)) ∧
      (∀ q, stockOf db' q
        = (stockOf db q).map (fun s => s + linkedQty o.items q)) ∧
      db'.orders = db.orders ∧ db'.customers = db.customers ∧
      db'.users = db.users ∧
      (∀ q, (findProduct db'.products q).isSome
        = (findProduct db.products q).isSome) := by
  unfold restore_inventory_for_order
  by_cases he : o.items.isEmpty = true
  · have hnil : o.items = [] := by
      cases hitems : o.items
      · rfl
      · rw [hitems] at he
        exact absurd he (by simp)
    refine ⟨db, by rw [if_pos he], by rw [hnil]; simp, ?_, rfl, rfl, rfl,
      fun q => rfl⟩
    intro q
    rw [hnil, linkedQty_nil]
    cases stockOf db q <;> simp
  · rw [if_neg he, hsale, hret]
    simp only [Bool.not_true, Bool.false_eq_true, if_false]
    exact restore_loop_spec o.id actor (orderMemo o.orderNumber) o.items db hlink

/-- `deduct_inventory_for_order` is a no-op once a sale is recorded. -/
lemma deduct_noop (db : DB) (o : Order) (actor : Option Nat)
    (h : order_has_transactions db o.id .sale = true) :
    deduct_inventory_for_order db o actor = .ok db := by
  unfold deduct_inventory_for_order
  by_cases he : o.items.isEmpty = true
  · rw [if_pos he]
  · rw [if_neg he]
    simp [h]

/-- Full behaviour of `deduct_inventory_for_order` when no sale is recorded
yet and every product still linked by a line exists. -/
lemma deduct_spec (db : DB) (o : Order) (actor : Option Nat)
    (hsale : order_has_transactions db o.id .sale = false)
    (hlink : ∀ it ∈ o.items, ∀ pid, it.productId = some pid →
      (findProduct db.products pid).isSome = true) :
    ∃ db', deduct_inventory_for_order db o actor = .ok db' ∧
      db'.ledger = db.ledger ++
        o.items.filterMap (saleTx? o.id actor (orderMemo o.orderNumber)) ∧
      (∀ q, stockOf db' q
        = (stockOf db q).map (fun s => s - linkedQty o.items q)) ∧
      db'.orders = db.orders ∧ db'.customers = db.customers ∧
      db'.users = db.users ∧
      (∀ q, (findProduct db'.products q).isSome
        = (findProduct db.products q).isSome) := by
  unfold deduct_inventory_for_order
  by_cases he : o.items.isEmpty = true
  · have hnil : o.items = [] := by
      cases hitems : o.items
      · rfl
      · rw [hitems] at he
        exact absurd he (by simp)
    refine ⟨db, by rw [if_pos he], by rw [hnil]; simp, ?_, rfl, rfl, rfl,
      fun q => rfl⟩
    intro q
    rw [hnil, linkedQty_nil]
    cases stockOf db q <;> simp
  · rw [if_neg he, hsale]
    simp only [Bool.false_eq_true, if_false]
    exact deduct_loop_spec o.id actor (orderMemo o.orderNumber) o.items db hlink

/-! ### Pricing and creation -/

/-- The relation `create_order`'s pricing loop establishes between an input
line and the persisted line: the product is resolved in the creation-time
state and its name/price snapshotted, with `total_price = unit_price *
quantity`. -/
def pricedRel (db : DB) (ic : OrderItemCreate) (it : OrderItem) : Prop :=
  ∃ p, findProduct db.products ic.productId = some p ∧
    it = { productId := some p.id, productName := p.name,
           quantity := ic.quantity, unitPrice := p.price,
           totalPrice := p.price * (ic.quantity : ℚ) }

lemma priceItems_sound (db : DB) :
    ∀ (l : List OrderItemCreate) (items : List OrderItem) (sub : ℚ),
      priceItems db l = .ok (items, sub) →
      List.Forall₂ (pricedRel db) l items ∧
      sub = (items.map (fun it => it.totalPrice)).sum := by
  intro l
  induction l with
  | nil =>
    intro items sub h
    unfold priceItems at h
    obtain ⟨h1, h2⟩ := Prod.mk.injEq _ _ _ _ ▸ (Except.ok.injEq _ _ ▸ h.symm)
    subst h1
    subst h2
    exact ⟨List.Forall₂.nil, by simp⟩
  | cons ic rest ih =>
    intro items sub h
    unfold priceItems at h
    cases hfp : findProduct db.products ic.productId with
    | none =>
      rw [hfp] at h
      exact absurd h (by simp)
    | some p =>
      rw [hfp] at h
      simp only [] at h
      cases hr : priceItems db rest with
      | error e =>
        rw [hr] at h
        exact absurd h (by simp [Except.map])
      | ok r =>
        obtain ⟨ritems, rsub⟩ := r
        rw [hr] at h
        simp only [Except.map, Except.ok.injEq, Prod.mk.injEq] at h
        obtain ⟨hitems, hsub⟩ := h
        obtain ⟨hf, hs⟩ := ih ritems rsub hr
        subst hitems
        subst hsub
        constructor
        · exact List.Forall₂.cons ⟨p, hfp, rfl⟩ hf
        · simp only [List.map_cons, List.sum_cons, hs]

/-- Inversion of a successful `create_order`: every check passed, the
returned order is the built row, and the final state is the intermediate
state (order row appended) transformed by the inventory deduction exactly
when the initial status is committed. -/
lemma create_order_ok_inv (db : DB) (oin : OrderCreate)
    (createdBy : Option Nat) (now : Nat) (ymd : List Char) (oid : Nat)
    (db' : DB) (o : Order)
    (hok : create_order db oin createdBy now ymd oid = .ok (db', o)) :
    ∃ items sub,
      priceItems db oin.items = .ok (items, sub) ∧
      o = builtOrder db oin createdBy now ymd oid items sub ∧
      0 ≤ sub - oin.discountTotal + oin.taxTotal + oin.shippingFee ∧
      db.customers.contains oin.customerId = true ∧
      oin.items.isEmpty = false ∧
      ((requires_inventory_deduction oin.status = true ∧
        deduct_inventory_for_order { db with orders := db.orders ++ [o] } o
          createdBy = .ok db') ∨
       (requires_inventory_deduction oin.status = false ∧
        db' = { db with orders := db.orders ++ [o] })) := by
  unfold create_order at hok
  by_cases hcust : db.customers.contains oin.customerId = true
  · rw [hcust] at hok
    simp only [Bool.not_true, Bool.false_eq_true, if_false] at hok
    by_cases hemp : oin.items.isEmpty = true
    · rw [hemp] at hok
      exact absurd hok (by simp)
    · rw [Bool.not_eq_true] at hemp
      rw [hemp] at hok
      simp only [Bool.false_eq_true, if_false] at hok
      cases hpi : priceItems db oin.items with
      | error e =>
        rw [hpi] at hok
        exact absurd hok (by simp)
      | ok r =>
        obtain ⟨items, sub⟩ := r
        rw [hpi] at hok
        simp only [] at hok
        refine ⟨items, sub, rfl, ?_⟩
        by_cases hneg :
            sub - oin.discountTotal + oin.taxTotal + oin.shippingFee < 0
        · rw [if_pos hneg] at hok
          exact absurd hok (by simp)
        · rw [if_neg hneg] at hok
          cases hca : checkAssigned db oin.assignedTo with
          | error e =>
            rw [hca] at hok
            exact absurd hok (by simp)
          | ok uu =>
            rw [hca] at hok
            simp only [] at hok
            rw [show (builtOrder db oin createdBy now ymd oid items
              sub).status = oin.status from rfl] at hok
            by_cases hreq : requires_inventory_deduction oin.status = true
            · rw [hreq] at hok
              simp only [if_true] at hok
              cases hd : deduct_inventory_for_order
                  { db with
                    orders := db.orders ++
                      [builtOrder db oin createdBy now ymd oid items sub] }
                  (builtOrder db oin createdBy now ymd oid items sub)
                  createdBy with
              | error e =>
                rw [hd] at hok
                exact absurd hok (by simp [Except.map])
              | ok db2 =>
                rw [hd] at hok
                simp only [Except.map, Except.ok.injEq, Prod.mk.injEq] at hok
                obtain ⟨hdb, ho⟩ := hok
                subst hdb
                subst ho
                exact ⟨rfl, not_lt.mp hneg, hcust, hemp,
                  Or.inl ⟨hreq, hd⟩⟩
            · rw [Bool.not_eq_true] at hreq
              rw [hreq] at hok
              simp only [Bool.false_eq_true, if_false, Except.ok.injEq,
                Prod.mk.injEq] at hok
              obtain ⟨hdb, ho⟩ := hok
              subst hdb
              subst ho
              exact ⟨rfl, not_lt.mp hneg, hcust, hemp, Or.inr ⟨hreq, rfl⟩⟩
  · rw [Bool.not_eq_true] at hcust
    rw [hcust] at hok
    exact absurd hok (by simp)

/-- Total quantity an order-creation payload requests of one product id. -/
def orderedQty (l : List OrderItemCreate) (q : Nat) : Int :=
  ((l.filter (fun ic => ic.productId == q)).map
    (fun ic => (ic.quantity : Int))).sum

lemma orderedQty_cons (ic : OrderItemCreate) (l : List OrderItemCreate)
    (q : Nat) :
    orderedQty (ic :: l) q
      = (if ic.productId == q then (ic.quantity : Int) else 0)
          + orderedQty l q := by
  unfold orderedQty
  by_cases h : (ic.productId == q) = true
  · simp [List.filter_cons, h]
  · simp [List.filter_cons, h]

lemma priced_link (db : DB) :
    ∀ (l : List OrderItemCreate) (items : List OrderItem),
      List.Forall₂ (pricedRel db) l items →
      ∀ it ∈ items, ∀ pid, it.productId = some pid →
        (findProduct db.products pid).isSome = true := by
  intro l items hf
  induction hf with
  | nil =>
    intro it h
    exact absurd h (List.not_mem_nil it)
  | @cons ic it l2 items2 h hrest ih =>
    intro it2 hmem pid hpid
    rcases List.mem_cons.mp hmem with heq | hmem2
    · subst heq
      obtain ⟨p, hp, heq⟩ := h
      subst heq
      simp only [Option.some.injEq] at hpid
      subst hpid
      rw [findProduct_id hp]
      rw [hp]
      rfl
    · exact ih it2 hmem2 pid hpid

lemma priced_sale_txs (db : DB) (oid : Nat) (actor : Option Nat)
    (memo : List Char) :
    ∀ (l : List OrderItemCreate) (items : List OrderItem),
      List.Forall₂ (pricedRel db) l items →
      List.Forall₂ (fun (ic : OrderItemCreate) (t : Tx) =>
          t.type = .sale ∧ t.quantity = -(ic.quantity : Int) ∧
          t.productId = ic.productId ∧ t.orderId = some oid ∧
          t.actorId = actor)
        l (items.filterMap (saleTx? oid actor memo)) ∧
      (∀ q, linkedQty items q = orderedQty l q) := by
  intro l items hf
  induction hf with
  | nil => exact ⟨List.Forall₂.nil, fun q => rfl⟩
  | @cons ic it l2 items2 h hrest ih =>
    obtain ⟨p, hp, heq⟩ := h
    subst heq
    have hid : p.id = ic.productId := findProduct_id hp
    constructor
    · have htx : saleTx? oid actor memo
          { productId := some p.id, productName := p.name,
            quantity := ic.quantity, unitPrice := p.price,
            totalPrice := p.price * (ic.quantity : ℚ) } =
          some { productId := p.id, orderId := some oid, type := .sale,
                 quantity := -(ic.quantity : Int), actorId := actor,
                 memo := some memo } := rfl
      rw [List.filterMap_cons, htx]
      exact List.Forall₂.cons ⟨rfl, rfl, hid, rfl, rfl⟩ ih.1
    · intro q
      rw [linkedQty_cons, orderedQty_cons, ih.2 q]
      by_cases hq : ic.productId = q
      · subst hq
        simp [hid]
      · simp [hid, hq]

/-! ### C3: pricing arithmetic of create_order -/

/-- Claim C3: a successful `create_order` snapshots each line's `unit_price`
from the product's current price, sets `total_price = unit_price * quantity`,
`subtotal = Σ total_price`, and
`grand_total = subtotal − discount + tax + shipping`, all in exact (rational)
arithmetic, and the stored grand total is non-negative; when the computed
grand total would be negative the call fails with the invalid-total error —
and, the result being an error, no state is produced. -/
theorem create_order_pricing (db : DB) (oin : OrderCreate)
    (createdBy : Option Nat) (now : Nat) (ymd : List Char) (oid : Nat) :
    (∀ db' o, create_order db oin createdBy now ymd oid = .ok (db', o) →
      List.Forall₂ (fun (ic : OrderItemCreate) (it : OrderItem) => ∃ p,
          findProduct db.products ic.productId = some p ∧
          it.unitPrice = p.price ∧ it.quantity = ic.quantity ∧
          it.totalPrice = it.unitPrice * (it.quantity : ℚ)) oin.items o.items ∧
      o.subtotal = (o.items.map (fun it => it.totalPrice)).sum ∧
      o.grandTotal
        = o.subtotal - oin.discountTotal + oin.taxTotal + oin.shippingFee ∧
      o.discountTotal = oin.discountTotal ∧ o.taxTotal = oin.taxTotal ∧
      o.shippingFee = oin.shippingFee ∧ 0 ≤ o.grandTotal) ∧
    (∀ items sub, db.customers.contains oin.customerId = true →
      oin.items.isEmpty = false →
      priceItems db oin.items = .ok (items, sub) →
      sub - oin.discountTotal + oin.taxTotal + oin.shippingFee < 0 →
      create_order db oin createdBy now ymd oid
        = .error .negativeGrandTotal) := by
  constructor
  · intro db' o hok
    obtain ⟨items, sub, hpi, ho, hge, -, -, -⟩ :=
      create_order_ok_inv db oin createdBy now ymd oid db' o hok
    obtain ⟨hf, hs⟩ := priceItems_sound db oin.items items sub hpi
    subst ho
    refine ⟨?_, hs, rfl, rfl, rfl, rfl, hge⟩
    refine hf.imp ?_
    intro ic it hr
    obtain ⟨p, hp, heq⟩ := hr
    subst heq
    exact ⟨p, hp, rfl, rfl, rfl⟩
  · intro items sub hcust hemp hpi hneg
    unfold create_order
    rw [hcust]
    simp only [Bool.not_true, Bool.false_eq_true, if_false]
    rw [hemp]
    simp only [Bool.false_eq_true, if_false]
    rw [hpi]
    simp only []
    rw [if_pos hneg]

/-! ### C2: committed creation deducts inventory -/

/-- Claim C2: a successful `create_order` whose initial status is committed
(confirmed, paid or fulfilled) appends exactly one `sale` ledger entry per
line — in payload order, each carrying delta `−quantity`, the line's product,
the new order's id and the acting user — and decreases each product's stock by
the total quantity ordered of it (negative stock being permitted: no
insufficient-stock failure exists on this path). -/
theorem create_order_committed_deducts (db : DB) (oin : OrderCreate)
    (createdBy : Option Nat) (now : Nat) (ymd : List Char) (oid : Nat)
    (hfresh : ∀ t ∈ db.ledger, t.orderId ≠ some oid)
    (hcomm : requires_inventory_deduction oin.status = true)
    (db' : DB) (o : Order)
    (hok : create_order db oin createdBy now ymd oid = .ok (db', o)) :
    o.id = oid ∧ o.status = oin.status ∧
    (∃ txs, db'.ledger = db.ledger ++ txs ∧
      List.Forall₂ (fun (ic : OrderItemCreate) (t : Tx) =>
          t.type = .sale ∧ t.quantity = -(ic.quantity : Int) ∧
          t.productId = ic.productId ∧ t.orderId = some oid ∧
          t.actorId = createdBy) oin.items txs) ∧
    (∀ q, stockOf db' q
      = (stockOf db q).map (fun s => s - orderedQty oin.items q)) := by
  obtain ⟨items, sub, hpi, ho, hge, hcust, hemp, hbranch⟩ :=
    create_order_ok_inv db oin createdBy now ymd oid db' o hok
  rcases hbranch with ⟨-, hd⟩ | ⟨hreq, -⟩
  · obtain ⟨hf, hs⟩ := priceItems_sound db oin.items items sub hpi
    have hitems : o.items = items := by rw [ho]; rfl
    have hoid : o.id = oid := by rw [ho]; rfl
    have hsale1 : order_has_transactions
        { db with orders := db.orders ++ [o] } o.id .sale = false := by
      apply order_has_transactions_of_fresh
      intro t ht
      rw [hoid]
      exact hfresh t ht
    have hlink1 : ∀ it ∈ o.items, ∀ pid, it.productId = some pid →
        (findProduct ({ db with orders := db.orders ++ [o] } : DB).products pid).isSome
          = true := by
      intro it hmem pid hpid
      rw [hitems] at hmem
      exact priced_link db oin.items items hf it hmem pid hpid
    obtain ⟨db2, hrun, hled, hstock, -, -, -, -⟩ :=
      deduct_spec { db with orders := db.orders ++ [o] } o createdBy hsale1
        hlink1
    rw [hd] at hrun
    have hdb2 : db' = db2 := by
      exact (Except.ok.injEq _ _ ▸ hrun : db' = db2)
    subst hdb2
    obtain ⟨hft, hlq⟩ := priced_sale_txs db o.id createdBy
      (orderMemo o.orderNumber) oin.items items hf
    refine ⟨hoid, by rw [ho]; rfl, ⟨items.filterMap
      (saleTx? o.id createdBy (orderMemo o.orderNumber)), ?_, ?_⟩, ?_⟩
    · rw [hled, hitems]
    · rw [← hoid]
      exact hft
    · intro q
      rw [hstock q, hitems]
      have : stockOf { db with orders := db.orders ++ [o] } q
          = stockOf db q := rfl
      rw [this, hlq q]
  · rw [hreq] at hcomm
    exact absurd hcomm (by simp)

/-! ### Fixtures for the creation claims -/

def ymd3 : List Char := "20251012".data

/-- Draft-status creation payload: 3 units of product 1,
discount 1, tax 2.5, shipping 5. -/
def fxOinDraft : OrderCreate :=
  { customerId := 7, status := .draft, assignedTo := none,
    discountTotal := 1, taxTotal := 5/2, shippingFee := 5,
    items := [{ productId := 1, quantity := 3 }] }

/-- Same payload with an initial committed status. -/
def fxOinConf : OrderCreate :=
  { customerId := 7, status := .confirmed, assignedTo := none,
    discountTotal := 1, taxTotal := 5/2, shippingFee := 5,
    items := [{ productId := 1, quantity := 3 }] }

/-- Same payload with a discount exceeding any possible total. -/
def fxOinNeg : OrderCreate :=
  { customerId := 7, status := .draft, assignedTo := none,
    discountTotal := 100, taxTotal := 5/2, shippingFee := 5,
    items := [{ productId := 1, quantity := 3 }] }

/-- The priced line for 3 units of product 1 at price 5. -/
def fxItems3 : List OrderItem :=
  [{ productId := some 1, productName := fxProduct.name, quantity := 3,
     unitPrice := 5, totalPrice := 15 }]

def fxO3 : Order := builtOrder fxDb fxOinDraft (some 9) 100 ymd3 42 fxItems3 15

def fxDb3 : DB := { fxDb with orders := fxDb.orders ++ [fxO3] }

def fxOC2 : Order := builtOrder fxDb fxOinConf (some 9) 100 ymd3 42 fxItems3 15

def fxTxC2 : Tx :=
  { productId := 1, orderId := some 42, type := .sale, quantity := -3,
    actorId := some 9, memo := some (orderMemo fxOC2.orderNumber) }

def fxDbC2 : DB :=
  { products := [{ fxProduct with stock := 7 }, fxProduct2],
    orders := [fxOC2], ledger := [fxTxC2], customers := [7], users := [4] }

attribute [local semireducible] Rat.add Rat.sub Rat.mul Rat.inv in
set_option maxRecDepth 100000 in
/-- Witness for C3 at concrete inputs: the draft order for 3 × product 1
(price 5) with discount 1, tax 2.5 and shipping 5 is priced
subtotal 15, grand total 21.5; raising the discount to 100 makes the computed
grand total negative and the creation fails with the invalid-total error. -/
theorem create_order_pricing_witness :
    (fxO3.subtotal = (fxO3.items.map (fun it => it.totalPrice)).sum ∧
     fxO3.grandTotal = fxO3.subtotal - fxOinDraft.discountTotal
        + fxOinDraft.taxTotal + fxOinDraft.shippingFee ∧
     0 ≤ fxO3.grandTotal) ∧
    create_order fxDb fxOinNeg (some 9) 100 ymd3 42
      = .error .negativeGrandTotal := by
  have h := (create_order_pricing fxDb fxOinDraft (some 9) 100 ymd3 42).1
    fxDb3 fxO3 rfl
  have h2 := (create_order_pricing fxDb fxOinNeg (some 9) 100 ymd3 42).2
    fxItems3 15 rfl rfl rfl (by decide)
  exact ⟨⟨h.2.1, h.2.2.1, h.2.2.2.2.2.2⟩, h2⟩

attribute [local semireducible] Rat.add Rat.sub Rat.mul Rat.inv in
set_option maxRecDepth 100000 in
/-- Witness for C2 at concrete inputs: creating the confirmed order for
3 × product 1 appends exactly one `sale` entry with delta −3 and lowers
product 1's stock from 10 to 7. -/
theorem create_order_committed_deducts_witness :
    create_order fxDb fxOinConf (some 9) 100 ymd3 42 = .ok (fxDbC2, fxOC2) ∧
    fxOC2.id = 42 ∧
    (∃ txs, fxDbC2.ledger = fxDb.ledger ++ txs ∧
      List.Forall₂ (fun (ic : OrderItemCreate) (t : Tx) =>
          t.type = .sale ∧ t.quantity = -(ic.quantity : Int) ∧
          t.productId = ic.productId ∧ t.orderId = some 42 ∧
          t.actorId = some 9) fxOinConf.items txs) ∧
    (∀ q, stockOf fxDbC2 q
      = (stockOf fxDb q).map (fun s => s - orderedQty fxOinConf.items q)) := by
  have hok : create_order fxDb fxOinConf (some 9) 100 ymd3 42
      = .ok (fxDbC2, fxOC2) := rfl
  have h := create_order_committed_deducts fxDb fxOinConf (some 9) 100 ymd3 42
    (by intro t ht; exact absurd ht (List.not_mem_nil t)) rfl fxDbC2 fxOC2 hok
  exact ⟨hok, h.1, h.2.2.1, h.2.2.2⟩

/-! ### C7: delete_order restores what was deducted -/

lemma linkedQty_eq_zero_of_no_sale (oid : Nat) (a : Option Nat)
    (m : List Char) :
    ∀ (items : List OrderItem) (q : Nat),
      items.filterMap (saleTx? oid a m) = [] → linkedQty items q = 0 := by
  intro items
  induction items with
  | nil => intro q _; rfl
  | cons it rest ih =>
    intro q h
    rw [List.filterMap_cons] at h
    cases hp : it.productId with
    | some pid =>
      simp only [saleTx?, hp, Option.map_some'] at h
      exact absurd h (by simp)
    | none =>
      simp only [saleTx?, hp, Option.map_none'] at h
      rw [linkedQty_cons, hp]
      simp only [ih q h]
      simp

lemma sale_tx_mem {oid : Nat} {a : Option Nat} {m : List Char}
    {items : List OrderItem} {t : Tx}
    (ht : t ∈ items.filterMap (saleTx? oid a m)) :
    t.orderId = some oid ∧ t.type = .sale := by
  obtain ⟨it, -, hsome⟩ := List.mem_filterMap.mp ht
  unfold saleTx? at hsome
  cases hp : it.productId with
  | none => rw [hp] at hsome; exact absurd hsome (by simp)
  | some pid =>
    rw [hp] at hsome
    simp only [Option.map_some', Option.some.injEq] at hsome
    subst hsome
    exact ⟨rfl, rfl⟩

/-- Claim C7: deleting an order whose inventory was deducted restores to each
product exactly the quantity deducted — the delete after the deduction brings
every stock back to its pre-deduction value — before removing the order row;
and the deletion always attempts the restore, which is a no-op (same products,
same number of ledger rows) when no sale was recorded or a return was already
recorded. -/
theorem delete_order_restores :
    (∀ (db : DB) (o : Order) (actor : Option Nat) (db1 : DB),
      (∀ t ∈ db.ledger, t.orderId ≠ some o.id) →
      (∀ it ∈ o.items, ∀ pid, it.productId = some pid →
        (findProduct db.products pid).isSome = true) →
      deduct_inventory_for_order db o actor = .ok db1 →
      ∃ db2, delete_order db1 o = .ok db2 ∧
        (∀ q, stockOf db2 q = stockOf db q) ∧
        db2.orders = db1.orders.filter (fun x => !(x.id == o.id))) ∧
    (∀ (db : DB) (o : Order),
      order_has_transactions db o.id .sale = false ∨
        order_has_transactions db o.id .ret = true →
      ∃ db2, delete_order db o = .ok db2 ∧
        db2.products = db.products ∧
        db2.ledger.length = db.ledger.length ∧
        db2.orders = db.orders.filter (fun x => !(x.id == o.id))) := by
  constructor
  · intro db o actor db1 hfresh hlink hded
    have hsale0 : order_has_transactions db o.id .sale = false :=
      order_has_transactions_of_fresh db o.id .sale hfresh
    obtain ⟨db1', hrun, hled, hstock, hord, -, -, hsome⟩ :=
      deduct_spec db o actor hsale0 hlink
    rw [hded] at hrun
    have hdb1 : db1 = db1' := by
      exact (Except.ok.injEq _ _ ▸ hrun : db1 = db1')
    subst hdb1
    by_cases hb : o.items.filterMap
        (saleTx? o.id actor (orderMemo o.orderNumber)) = []
    · -- nothing was linked: the deduction wrote nothing, the restore inside
      -- the delete is a no-op
      have hled0 : db1.ledger = db.ledger := by rw [hled, hb]; simp
      have hnosale : order_has_transactions db1 o.id .sale = false := by
        unfold order_has_transactions
        rw [hled0]
        exact order_has_transactions_of_fresh db o.id .sale hfresh
      have hres := restore_noop db1 o none (Or.inl hnosale)
      refine ⟨_, by unfold delete_order; rw [hres]; rfl, ?_, rfl⟩
      intro q
      have h1 : stockOf
          { db1 with
            orders := db1.orders.filter (fun x => !(x.id == o.id)),
            ledger := db1.ledger.map
              (fun t => if t.orderId == some o.id
                then { t with orderId := none } else t) } q
          = stockOf db1 q := rfl
      rw [h1, hstock q]
      have hz := linkedQty_eq_zero_of_no_sale o.id actor
        (orderMemo o.orderNumber) o.items q hb
      rw [hz]
      cases stockOf db q <;> simp
    · -- at least one sale entry was written: the restore inside the delete
      -- adds every quantity back
      obtain ⟨t0, ht0⟩ := List.exists_mem_of_ne_nil _ hb
      have hsale1 : order_has_transactions db1 o.id .sale = true := by
        unfold order_has_transactions
        rw [hled, List.any_append]
        have : (o.items.filterMap
            (saleTx? o.id actor (orderMemo o.orderNumber))).any
            (fun t => t.orderId == some o.id && t.type == .sale) = true := by
          rw [List.any_eq_true]
          obtain ⟨h1, h2⟩ := sale_tx_mem ht0
          exact ⟨t0, ht0, by simp [h1, h2]⟩
        rw [this]
        simp
      have hret1 : order_has_transactions db1 o.id .ret = false := by
        unfold order_has_transactions
        rw [hled, List.any_append]
        have hl : db.ledger.any
            (fun t => t.orderId == some o.id && t.type == .ret) = false :=
          order_has_transactions_of_fresh db o.id .ret hfresh
        have hr : (o.items.filterMap
            (saleTx? o.id actor (orderMemo o.orderNumber))).any
            (fun t => t.orderId == some o.id && t.type == .ret) = false := by
          rw [List.any_eq_false]
          intro t ht
          obtain ⟨-, h2⟩ := sale_tx_mem ht
          simp [h2]
        rw [hl, hr]
        rfl
      have hlink1 : ∀ it ∈ o.items, ∀ pid, it.productId = some pid →
          (findProduct db1.products pid).isSome = true := by
        intro it hmem pid hpid
        rw [hsome pid]
        exact hlink it hmem pid hpid
      obtain ⟨db2', hres, hled2, hstock2, hord2, -, -, -⟩ :=
        restore_spec db1 o none hsale1 hret1 hlink1
      refine ⟨_, by unfold delete_order; rw [hres]; rfl, ?_, ?_⟩
      · intro q
        have h1 : stockOf
            { db2' with
              orders := db2'.orders.filter (fun x => !(x.id == o.id)),
              ledger := db2'.ledger.map
                (fun t => if t.orderId == some o.id
                  then { t with orderId := none } else t) } q
            = stockOf db2' q := rfl
        rw [h1, hstock2 q, hstock q]
        cases stockOf db q <;> simp
      · show db2'.orders.filter (fun x => !(x.id == o.id))
            = db1.orders.filter (fun x => !(x.id == o.id))
        rw [hord2]
  · intro db o h
    have hres := restore_noop db o none h
    refine ⟨{ db with
        orders := db.orders.filter (fun x => !(x.id == o.id)),
        ledger := db.ledger.map
          (fun t => if t.orderId == some o.id
            then { t with orderId := none } else t) },
      by unfold delete_order; rw [hres]; rfl, rfl, ?_, rfl⟩
    simp

/-- The sample state after deducting inventory for `fxOC2` (which is not
stored in `orders`: the deduction function only touches products and
ledger). -/
def fxDb7 : DB := { fxDbC2 with orders := [] }

/-- Witness for C7 at concrete inputs: deducting the confirmed order for
3 × product 1 from the sample state and then deleting the order returns every
stock to its original value. -/
theorem delete_order_restores_witness :
    ∃ db2, delete_order fxDb7 fxOC2 = .ok db2 ∧
      (∀ q, stockOf db2 q = stockOf fxDb q) ∧
      db2.orders = fxDb7.orders.filter (fun x => !(x.id == fxOC2.id)) :=
  delete_order_restores.1 fxDb fxOC2 (some 9) fxDb7
    (by intro t ht; exact absurd ht (List.not_mem_nil t))
    (by decide) rfl

/-! ### C1: committed → non-committed transitions restore inventory once -/

lemma stampStatusTime_items (o : Order) (s : OrderStatus) (now : Nat) :
    (stampStatusTime o s now).items = o.items := by
  cases s <;> rfl

lemma stampStatusTime_id (o : Order) (s : OrderStatus) (now : Nat) :
    (stampStatusTime o s now).id = o.id := by
  cases s <;> rfl

lemma stampStatusTime_orderNumber (o : Order) (s : OrderStatus) (now : Nat) :
    (stampStatusTime o s now).orderNumber = o.orderNumber := by
  cases s <;> rfl

lemma except_map_ok_inv {α β : Type} {f : α → β} {e : Except Err α} {b : β}
    (h : Except.map f e = .ok b) : ∃ a, e = .ok a ∧ b = f a := by
  cases e with
  | error x => exact absurd h (by simp [Except.map])
  | ok a =>
    refine ⟨a, rfl, ?_⟩
    have h2 : (Except.ok (f a) : Except Err β) = .ok b := h
    exact ((Except.ok.injEq _ _ ▸ h2 : f a = b)).symm

/-- Inversion of a successful `update_order` on a committed → non-committed
transition: the restore hook ran on the updated order (which keeps the
original id, lines and order number) against a state whose products and
ledger are unchanged. -/
lemma update_order_restore_inv (db : DB) (o : Order) (u : OrderUpdate)
    (ub : Option Nat) (now : Nat) (s : OrderStatus) (db' : DB) (o' : Order)
    (hprev : requires_inventory_deduction o.status = true)
    (hu : u.status = some s)
    (hs : requires_inventory_deduction s = false)
    (hok : update_order db o u ub now = .ok (db', o')) :
    o'.items = o.items ∧ o'.id = o.id ∧ o'.orderNumber = o.orderNumber ∧
    restore_inventory_for_order
      { db with orders := replaceOrder db.orders o' } o' ub = .ok db' := by
  have hne : u.isEmptyPayload = false := by
    unfold OrderUpdate.isEmptyPayload
    rw [hu]
    rfl
  unfold update_order at hok
  rw [hne] at hok
  simp only [Bool.false_eq_true, if_false] at hok
  cases hca : checkAssigned db u.assignedTo with
  | error e =>
    rw [hca] at hok
    exact absurd hok (by simp)
  | ok uu =>
    rw [hca] at hok
    simp only [hu, Option.getD_some, hprev, hs, Bool.not_true,
      Bool.false_and, Bool.not_false, Bool.true_and, Bool.false_eq_true,
      if_false, if_true] at hok
    split at hok
    · exact absurd hok (by simp)
    · obtain ⟨db2, hres, hpair⟩ := except_map_ok_inv hok
      obtain ⟨hdb, ho⟩ := Prod.mk.injEq _ _ _ _ ▸ hpair
      subst hdb
      subst ho
      refine ⟨?_, ?_, ?_, ?_⟩
      · exact stampStatusTime_items o s now
      · exact stampStatusTime_id o s now
      · exact stampStatusTime_orderNumber o s now
      · exact hres

lemma retTx_count (oid : Nat) (a : Option Nat) (m : List Char) :
    ∀ items : List OrderItem,
      (items.filterMap (retTx? oid a m)).length
        = (items.filter (fun it => it.productId.isSome)).length := by
  intro items
  induction items with
  | nil => rfl
  | cons it rest ih =>
    rw [List.filterMap_cons, List.filter_cons]
    cases hp : it.productId with
    | none => simp only [retTx?, hp, Option.map_none', Option.isSome_none,
        Bool.false_eq_true, if_false, ih]
    | some pid =>
      simp only [retTx?, hp, Option.map_some', Option.isSome_some, if_true,
        List.length_cons, ih]

/-- Claim C1 as amended: a successful committed → non-committed `update_order`
transition on an order with recorded `sale` entries and no `return` entries
appends exactly one `return` ledger entry per line item that still references
a product — carrying delta `+quantity` of that line — and adds those
quantities back to the stocks (lines whose product was deleted are skipped);
once a `return` entry exists, any later restore attempt is a no-op and a
further committed → non-committed transition appends no ledger entry and
changes no stock. -/
theorem update_order_restore_corrected :
    (∀ (db : DB) (o : Order) (u : OrderUpdate) (ub : Option Nat) (now : Nat)
        (s : OrderStatus) (db' : DB) (o' : Order),
      requires_inventory_deduction o.status = true →
      u.status = some s →
      requires_inventory_deduction s = false →
      order_has_transactions db o.id .sale = true →
      order_has_transactions db o.id .ret = false →
      (∀ it ∈ o.items, ∀ pid, it.productId = some pid →
        (findProduct db.products pid).isSome = true) →
      update_order db o u ub now = .ok (db', o') →
      db'.ledger = db.ledger ++
        o.items.filterMap (retTx? o.id ub (orderMemo o.orderNumber)) ∧
      db'.ledger.length = db.ledger.length +
        (o.items.filter (fun it => it.productId.isSome)).length ∧
      (∀ q, stockOf db' q
        = (stockOf db q).map (fun v => v + linkedQty o.items q))) ∧
    (∀ (db : DB) (o : Order) (actor : Option Nat),
      order_has_transactions db o.id .ret = true →
      restore_inventory_for_order db o actor = .ok db) ∧
    (∀ (db : DB) (o : Order) (u : OrderUpdate) (ub : Option Nat) (now : Nat)
        (s : OrderStatus) (db' : DB) (o' : Order),
      requires_inventory_deduction o.status = true →
      u.status = some s →
      requires_inventory_deduction s = false →
      order_has_transactions db o.id .ret = true →
      update_order db o u ub now = .ok (db', o') →
      db'.ledger = db.ledger ∧ db'.products = db.products) := by
  refine ⟨?_, ?_, ?_⟩
  · intro db o u ub now s db' o' hprev hu hs hsale hret hlink hok
    obtain ⟨hitems, hid, honum, hres⟩ :=
      update_order_restore_inv db o u ub now s db' o' hprev hu hs hok
    have hsale1 : order_has_transactions
        { db with orders := replaceOrder db.orders o' } o'.id .sale = true := by
      rw [hid]
      exact hsale
    have hret1 : order_has_transactions
        { db with orders := replaceOrder db.orders o' } o'.id .ret = false := by
      rw [hid]
      exact hret
    have hlink1 : ∀ it ∈ o'.items, ∀ pid, it.productId = some pid →
        (findProduct
          ({ db with orders := replaceOrder db.orders o' } : DB).products
          pid).isSome = true := by
      rw [hitems]
      exact hlink
    obtain ⟨db2, hrun, hled, hstock, -, -, -, -⟩ :=
      restore_spec { db with orders := replaceOrder db.orders o' } o' ub
        hsale1 hret1 hlink1
    rw [hres] at hrun
    have hdb2 : db' = db2 := by
      exact (Except.ok.injEq _ _ ▸ hrun : db' = db2)
    subst hdb2
    rw [hitems, hid, honum] at hled
    rw [hitems] at hstock
    refine ⟨hled, ?_, hstock⟩
    rw [hled, List.length_append, retTx_count]
  · intro db o actor hret
    exact restore_noop db o actor (Or.inr hret)
  · intro db o u ub now s db' o' hprev hu hs hret hok
    obtain ⟨-, hid, -, hres⟩ :=
      update_order_restore_inv db o u ub now s db' o' hprev hu hs hok
    have hret1 : order_has_transactions
        { db with orders := replaceOrder db.orders o' } o'.id .ret = true := by
      rw [hid]
      exact hret
    have hnoop := restore_noop
      { db with orders := replaceOrder db.orders o' } o' ub (Or.inr hret1)
    rw [hnoop] at hres
    have : db' = { db with orders := replaceOrder db.orders o' } := by
      exact (Except.ok.injEq _ _ ▸ hres.symm : db' = _)
    subst this
    exact ⟨rfl, rfl⟩

/-! ### C1 fixtures: an order with a product-less line,
reached by deleting a product -/

/-- Confirmed creation payload: 2 units of product 1 and 3 of product 2. -/
def fxOinTwo : OrderCreate :=
  { customerId := 7, status := .confirmed, assignedTo := none,
    discountTotal := 0, taxTotal := 0, shippingFee := 0,
    items := [{ productId := 1, quantity := 2 },
              { productId := 2, quantity := 3 }] }

def fxItemsTwo : List OrderItem :=
  [{ productId := some 1, productName := fxProduct.name, quantity := 2,
     unitPrice := 5, totalPrice := 10 },
   { productId := some 2, productName := fxProduct2.name, quantity := 3,
     unitPrice := 3, totalPrice := 9 }]

def fxOA : Order := builtOrder fxDb fxOinTwo (some 9) 100 ymd3 50 fxItemsTwo 19

def fxTxA1 : Tx :=
  { productId := 1, orderId := some 50, type := .sale, quantity := -2,
    actorId := some 9, memo := some (orderMemo fxOA.orderNumber) }

def fxTxA2 : Tx :=
  { productId := 2, orderId := some 50, type := .sale, quantity := -3,
    actorId := some 9, memo := some (orderMemo fxOA.orderNumber) }

/-- The state after creating the two-line confirmed order. -/
def fxDbA : DB :=
  { products := [{ fxProduct with stock := 8 }, { fxProduct2 with stock := 5 }],
    orders := [fxOA], ledger := [fxTxA1, fxTxA2], customers := [7],
    users := [4] }

/-- The order's lines after product 2 is deleted: the second line survives
with no product reference. -/
def fxItemsB : List OrderItem :=
  [{ productId := some 1, productName := fxProduct.name, quantity := 2,
     unitPrice := 5, totalPrice := 10 },
   { productId := none, productName := fxProduct2.name, quantity := 3,
     unitPrice := 3, totalPrice := 9 }]

def fxOB : Order := { fxOA with items := fxItemsB }

/-- The state after deleting product 2: its ledger rows are cascade-deleted
and the order line's product reference is nulled. -/
def fxDbB : DB :=
  { products := [{ fxProduct with stock := 8 }], orders := [fxOB],
    ledger := [fxTxA1], customers := [7], users := [4] }

/-- Payload carrying only `status = cancelled`. -/
def fxUpdCancel : OrderUpdate :=
  { status := some .cancelled, assignedTo := none, discountTotal := none,
    taxTotal := none, shippingFee := none, notes := none }

def fxRetTx : Tx :=
  { productId := 1, orderId := some 50, type := .ret, quantity := 2,
    actorId := none, memo := some (orderMemo fxOA.orderNumber) }

def fxOC1 : Order :=
  { fxOB with status := .cancelled, cancelledAt := some 200, updatedAt := 200, grandTotal := 19 }

/-- The state after cancelling the order: one `return` entry, for the line
that still references a product. -/
def fxDbC1 : DB :=
  { products := [{ fxProduct with stock := 10 }], orders := [fxOC1],
    ledger := [fxTxA1, fxRetTx], customers := [7], users := [4] }

attribute [local semireducible] Rat.add Rat.sub Rat.mul Rat.inv in
set_option maxRecDepth 1000000 in
/-- Counterexample to claim C1: a confirmed two-line order is created (two
`sale` entries recorded), then product 2 is deleted — its `sale` entry is
cascade-deleted and the line survives with `product_id = null`, exactly as the
data model prescribes.  The order still has recorded `sale` entries and no
`return` entries, yet cancelling it appends only ONE `return` entry for its
TWO line items: the claim's "exactly one return-type ledger entry per line
item" fails on the product-less line. -/
theorem update_order_restore_counterexample :
    create_order fxDb fxOinTwo (some 9) 100 ymd3 50 = .ok (fxDbA, fxOA) ∧
    delete_product fxDbA fxProduct2 = fxDbB ∧
    requires_inventory_deduction fxOB.status = true ∧
    requires_inventory_deduction OrderStatus.cancelled = false ∧
    order_has_transactions fxDbB fxOB.id .sale = true ∧
    order_has_transactions fxDbB fxOB.id .ret = false ∧
    fxOB.items.length = 2 ∧ fxDbB.ledger.length = 1 ∧
    update_order fxDbB fxOB fxUpdCancel none 200 = .ok (fxDbC1, fxOC1) ∧
    fxDbC1.ledger.length = fxDbB.ledger.length + 1 := by
  exact ⟨rfl, rfl, rfl, rfl, rfl, rfl, rfl, rfl, rfl, rfl⟩

attribute [local semireducible] Rat.add Rat.sub Rat.mul Rat.inv in
set_option maxRecDepth 1000000 in
/-- Witness for C1 (amended) at the concrete inputs of the counterexample
state: the cancellation appends the `return` entries of exactly the
product-bearing lines and adds their quantities back to stock. -/
theorem update_order_restore_witness :
    fxDbC1.ledger = fxDbB.ledger ++
      fxOB.items.filterMap (retTx? fxOB.id none (orderMemo fxOB.orderNumber)) ∧
    (∀ q, stockOf fxDbC1 q
      = (stockOf fxDbB q).map (fun v => v + linkedQty fxOB.items q)) := by
  have h := update_order_restore_corrected.1 fxDbB fxOB fxUpdCancel none 200
    .cancelled fxDbC1 fxOC1 rfl rfl rfl rfl rfl (by decide) rfl
  exact ⟨h.1, h.2.2⟩

/-! ### C5: order number allocation -/

lemma digitChar_lt_iff : ∀ a, a < 10 → ∀ b, b < 10 →
    (Nat.digitChar a < Nat.digitChar b ↔ a < b) := by decide

lemma digitChar_digit : ∀ a, a < 10 →
    (isDigitCh (Nat.digitChar a) = true ∧ Nat.digitChar a ≠ '-') := by decide

lemma digitVal_digitChar : ∀ a, a < 10 →
    digitVal? (Nat.digitChar a) = some a := by decide

lemma strLtB_irrefl : ∀ x : List Char, strLtB x x = false := by
  intro x
  induction x with
  | nil => rfl
  | cons c cs ih =>
    rw [strLtB, if_neg (lt_irrefl c), if_neg (lt_irrefl c)]
    exact ih

lemma strLtB_asymm : ∀ x y : List Char,
    strLtB x y = true → strLtB y x = false := by
  intro x
  induction x with
  | nil =>
    intro y h
    cases y with
    | nil => exact absurd h (by rw [strLtB]; simp)
    | cons c cs => rfl
  | cons a as ih =>
    intro y h
    cases y with
    | nil => exact absurd h (by rw [strLtB]; simp)
    | cons b bs =>
      rw [strLtB] at h ⊢
      by_cases hab : a < b
      · rw [if_neg (lt_asymm hab), if_pos hab]
      · rw [if_neg hab] at h
        by_cases hba : b < a
        · rw [if_pos hba] at h
          exact absurd h (by simp)
        · rw [if_neg hba] at h
          rw [if_neg hba, if_neg hab]
          exact ih bs h

lemma strLtB_append_left : ∀ (w u v : List Char),
    strLtB (w ++ u) (w ++ v) = strLtB u v := by
  intro w
  induction w with
  | nil => intro u v; rfl
  | cons c cs ih =>
    intro u v
    simp only [List.cons_append]
    rw [strLtB, if_neg (lt_irrefl c), if_neg (lt_irrefl c)]
    exact ih u v

lemma pad4_eq_digits (k : Nat) (hk : k < 10000) :
    pad4 k = [Nat.digitChar (k / 1000), Nat.digitChar (k / 100 % 10),
      Nat.digitChar (k / 10 % 10), Nat.digitChar (k % 10)] := by
  rw [pad4, if_pos hk]

lemma pad4_lt (a b : Nat) (hab : a < b) (hb : b ≤ 9999) :
    strLtB (pad4 a) (pad4 b) = true := by
  have ha4 : a < 10000 := by omega
  have hb4 : b < 10000 := by omega
  rw [pad4_eq_digits a ha4, pad4_eq_digits b hb4]
  have hd3 : a / 1000 < 10 := by omega
  have he3 : b / 1000 < 10 := by omega
  have hd2 : a / 100 % 10 < 10 := by omega
  have he2 : b / 100 % 10 < 10 := by omega
  have hd1 : a / 10 % 10 < 10 := by omega
  have he1 : b / 10 % 10 < 10 := by omega
  have hd0 : a % 10 < 10 := by omega
  have he0 : b % 10 < 10 := by omega
  have h3le : a / 1000 ≤ b / 1000 := by omega
  rcases Nat.lt_or_ge (a / 1000) (b / 1000) with h3 | h3
  · rw [strLtB, if_pos ((digitChar_lt_iff _ hd3 _ he3).mpr h3)]
  · have h3eq : a / 1000 = b / 1000 := by omega
    rw [h3eq, strLtB, if_neg (lt_irrefl _), if_neg (lt_irrefl _)]
    have h2le : a / 100 % 10 ≤ b / 100 % 10 := by omega
    rcases Nat.lt_or_ge (a / 100 % 10) (b / 100 % 10) with h2 | h2
    · rw [strLtB, if_pos ((digitChar_lt_iff _ hd2 _ he2).mpr h2)]
    · have h2eq : a / 100 % 10 = b / 100 % 10 := by omega
      rw [h2eq, strLtB, if_neg (lt_irrefl _), if_neg (lt_irrefl _)]
      have h1le : a / 10 % 10 ≤ b / 10 % 10 := by omega
      rcases Nat.lt_or_ge (a / 10 % 10) (b / 10 % 10) with h1 | h1
      · rw [strLtB, if_pos ((digitChar_lt_iff _ hd1 _ he1).mpr h1)]
      · have h1eq : a / 10 % 10 = b / 10 % 10 := by omega
        rw [h1eq, strLtB, if_neg (lt_irrefl _), if_neg (lt_irrefl _)]
        have h0 : a % 10 < b % 10 := by omega
        rw [strLtB, if_pos ((digitChar_lt_iff _ hd0 _ he0).mpr h0)]

lemma pad4_length (k : Nat) (hk : k < 10000) : (pad4 k).length = 4 := by
  rw [pad4_eq_digits k hk]
  rfl

lemma pad4_all_digits (k : Nat) (hk : k < 10000) :
    (pad4 k).all isDigitCh = true := by
  rw [pad4_eq_digits k hk]
  simp only [List.all_cons, List.all_nil, Bool.and_true]
  rw [(digitChar_digit _ (by omega : k / 1000 < 10)).1,
    (digitChar_digit _ (by omega : k / 100 % 10 < 10)).1,
    (digitChar_digit _ (by omega : k / 10 % 10 < 10)).1,
    (digitChar_digit _ (by omega : k % 10 < 10)).1]
  rfl

lemma pad4_no_dash (k : Nat) (hk : k < 10000) :
    ∀ c ∈ pad4 k, c ≠ '-' := by
  rw [pad4_eq_digits k hk]
  intro c hc
  simp only [List.mem_cons, List.not_mem_nil, or_false] at hc
  rcases hc with h | h | h | h
  · subst h; exact (digitChar_digit _ (by omega : k / 1000 < 10)).2
  · subst h; exact (digitChar_digit _ (by omega : k / 100 % 10 < 10)).2
  · subst h; exact (digitChar_digit _ (by omega : k / 10 % 10 < 10)).2
  · subst h; exact (digitChar_digit _ (by omega : k % 10 < 10)).2

lemma parseNat_pad4 (k : Nat) (hk : k ≤ 9999) :
    parseNat? (pad4 k) = some k := by
  have h3 : k / 1000 < 10 := by omega
  have h2 : k / 100 % 10 < 10 := by omega
  have h1 : k / 10 % 10 < 10 := by omega
  have h0 : k % 10 < 10 := by omega
  rw [parseNat?, pad4_eq_digits k (by omega)]
  simp only [parseDigits, digitVal_digitChar _ h3, digitVal_digitChar _ h2,
    digitVal_digitChar _ h1, digitVal_digitChar _ h0, Option.getD_some,
    Option.getD_none, Option.some.injEq]
  omega

lemma takeWhile_stop {p : Char → Bool} :
    ∀ (u : List Char) (c : Char) (v : List Char),
      (∀ x ∈ u, p x = true) → p c = false →
      (u ++ c :: v).takeWhile p = u := by
  intro u
  induction u with
  | nil =>
    intro c v _ hc
    simp [List.takeWhile_cons, hc]
  | cons a as ih =>
    intro c v hu hc
    simp only [List.cons_append, List.takeWhile_cons,
      hu a (List.mem_cons_self _ _), if_true]
    rw [ih c v (fun x hx => hu x (List.mem_cons_of_mem _ hx)) hc]

lemma numFor_eq_append (ymd : List Char) (k : Nat) :
    numFor ymd k = ('O' :: 'R' :: 'D' :: ymd ++ ['-']) ++ pad4 k := by
  unfold numFor
  rw [List.append_assoc]
  rfl

lemma afterLastDash_numFor (ymd : List Char) (k : Nat) (hk : k ≤ 9999) :
    afterLastDash (numFor ymd k) = pad4 k := by
  unfold afterLastDash numFor
  have h1 : ('O' :: 'R' :: 'D' :: ymd ++ '-' :: pad4 k).reverse
      = (pad4 k).reverse ++ '-' :: ('O' :: 'R' :: 'D' :: ymd).reverse := by
    rw [List.reverse_append]
    simp
  rw [h1]
  rw [takeWhile_stop ((pad4 k).reverse) '-' _ ?_ ?_]
  · exact List.reverse_reverse _
  · intro x hx
    have hx2 : x ∈ pad4 k := List.mem_reverse.mp hx
    have := pad4_no_dash k (by omega) x hx2
    simp [this]
  · rfl

lemma numFor_lt (ymd : List Char) (j k : Nat) (hjk : j < k) (hk : k ≤ 9999) :
    strLtB (numFor ymd j) (numFor ymd k) = true := by
  rw [numFor_eq_append, numFor_eq_append, strLtB_append_left]
  exact pad4_lt j k hjk hk

lemma numFor_not_lt (ymd : List Char) (j k : Nat) (hkj : k ≤ j)
    (hj : j ≤ 9999) : strLtB (numFor ymd j) (numFor ymd k) = false := by
  rcases Nat.eq_or_lt_of_le hkj with heq | hlt
  · subst heq
    exact strLtB_irrefl _
  · exact strLtB_asymm _ _ (numFor_lt ymd k j hlt hj)

lemma numFor_inj (ymd : List Char) {j k : Nat} (hj : j ≤ 9999)
    (hk : k ≤ 9999) (h : numFor ymd j = numFor ymd k) : j = k := by
  have h2 := congrArg afterLastDash h
  rw [afterLastDash_numFor ymd j hj, afterLastDash_numFor ymd k hk] at h2
  have h3 := congrArg parseNat? h2
  rw [parseNat_pad4 j hj, parseNat_pad4 k hk] at h3
  exact Option.some.injEq _ _ ▸ h3

lemma hasPfxB_append : ∀ (w rest : List Char),
    hasPfxB w (w ++ rest) = true := by
  intro w
  induction w with
  | nil => intro rest; rfl
  | cons c cs ih =>
    intro rest
    simp only [List.cons_append]
    rw [hasPfxB]
    simp only [beq_self_eq_true, Bool.true_and]
    exact ih rest

lemma matchesFormat_numFor (ymd : List Char) (k : Nat)
    (hy : ymdOkB ymd = true) (hk : k ≤ 9999) :
    matchesFormat (numFor ymd k) = true := by
  unfold ymdOkB at hy
  simp only [Bool.and_eq_true, beq_iff_eq] at hy
  obtain ⟨hlen, hdig⟩ := hy
  have htake : (ymd ++ '-' :: pad4 k).take 8 = ymd := by
    have := List.take_left ymd ('-' :: pad4 k)
    rw [hlen] at this
    exact this
  have hdrop : (ymd ++ '-' :: pad4 k).drop 8 = '-' :: pad4 k := by
    have := List.drop_left ymd ('-' :: pad4 k)
    rw [hlen] at this
    exact this
  have hdrop9 : (ymd ++ '-' :: pad4 k).drop 9 = pad4 k := by
    have h1 : (ymd ++ '-' :: pad4 k).drop 9
        = ((ymd ++ '-' :: pad4 k).drop 8).drop 1 := by
      rw [List.drop_drop]
    rw [h1, hdrop]
    rfl
  have key : matchesFormat (numFor ymd k) =
      ((['O', 'R', 'D'] == "ORD".data)
        && ((ymd ++ '-' :: pad4 k).take 8).length == 8
        && ((ymd ++ '-' :: pad4 k).take 8).all isDigitCh
        && (((ymd ++ '-' :: pad4 k).drop 8).take 1 == ['-'])
        && ((ymd ++ '-' :: pad4 k).drop 9).length == 4
        && ((ymd ++ '-' :: pad4 k).drop 9).all isDigitCh) := rfl
  rw [key, htake, hdrop, hdrop9, hlen, hdig,
    pad4_length k (by omega), pad4_all_digits k (by omega)]
  show (['O', 'R', 'D'] == "ORD".data && 8 == 8 && true
    && ['-'] == ['-'] && 4 == 4 && true) = true
  decide

/-- The maximum scan reaches the day's greatest number: folding `lexStep`
over same-day numbers with counters at most `m`, starting from an
accumulator that is absent or also such a number, yields `numFor ymd m` as
soon as it occurs in the list or the accumulator. -/
lemma foldMax_reaches (ymd : List Char) (m : Nat) (hm : m ≤ 9999) :
    ∀ (l : List (List Char)) (acc : Option (List Char)),
      (∀ s ∈ l, ∃ k, 1 ≤ k ∧ k ≤ m ∧ s = numFor ymd k) →
      (acc = none ∨
        ∃ k, 1 ≤ k ∧ k ≤ m ∧ acc = some (numFor ymd k)) →
      (numFor ymd m ∈ l ∨ acc = some (numFor ymd m)) →
      l.foldl lexStep acc = some (numFor ymd m) := by
  intro l
  induction l with
  | nil =>
    intro acc hl hacc hreach
    rcases hreach with h | h
    · exact absurd h (List.not_mem_nil _)
    · simpa using h
  | cons s l ih =>
    intro acc hl hacc hreach
    obtain ⟨k, hk1, hkm, hs⟩ := hl s (List.mem_cons_self _ _)
    subst hs
    rw [List.foldl_cons]
    have hacc' : (lexStep acc (numFor ymd k) = none) ∨
        ∃ k2, 1 ≤ k2 ∧ k2 ≤ m ∧
          lexStep acc (numFor ymd k) = some (numFor ymd k2) := by
      rcases hacc with h | ⟨j, hj1, hjm, hj⟩
      · subst h
        exact Or.inr ⟨k, hk1, hkm, rfl⟩
      · subst hj
        by_cases hlt : strLtB (numFor ymd j) (numFor ymd k) = true
        · exact Or.inr ⟨k, hk1, hkm, by simp [lexStep, hlt]⟩
        · refine Or.inr ⟨j, hj1, hjm, ?_⟩
          rw [Bool.not_eq_true] at hlt
          simp [lexStep, hlt]
    have hreach' : (numFor ymd m ∈ l) ∨
        lexStep acc (numFor ymd k) = some (numFor ymd m) := by
      rcases hreach with hmem | hacc_eq
      · rcases List.mem_cons.mp hmem with heq | hmem2
        · have hkm' : m = k := numFor_inj ymd hm (by omega) heq
          subst hkm'
          right
          rcases hacc with h | ⟨j, hj1, hjm, hj⟩
          · subst h
            rfl
          · subst hj
            by_cases hlt : strLtB (numFor ymd j) (numFor ymd m) = true
            · simp [lexStep, hlt]
            · have hjm' : j = m := by
                rcases Nat.lt_or_ge j m with hjlt | hjge
                · rw [numFor_lt ymd j m hjlt hm] at hlt
                  exact absurd rfl hlt
                · omega
              subst hjm'
              rw [Bool.not_eq_true] at hlt
              simp [lexStep, hlt]
        · exact Or.inl hmem2
      · right
        rw [hacc_eq]
        have hnl : strLtB (numFor ymd m) (numFor ymd k) = false :=
          numFor_not_lt ymd m k hkm hm
        simp [lexStep, hnl]
    exact ih (lexStep acc (numFor ymd k))
      (fun s2 h2 => hl s2 (List.mem_cons_of_mem _ h2)) hacc' hreach'

/-- `_generate_order_number` on a well-formed day state with maximum counter
`m ≤ 9999` allocates the number with counter `m + 1`. -/
lemma generate_good (ymd : List Char) (existing : List (List Char)) (m : Nat)
    (hm : m ≤ 9999) (hgs : GoodState existing ymd m) :
    generate_order_number existing ymd = numFor ymd (m + 1) := by
  obtain ⟨helem, hmax⟩ := hgs
  unfold generate_order_number
  simp only []
  rcases hmax with hm0 | hmem
  · subst hm0
    have hfil : existing.filter
        (fun s => hasPfxB (('O' :: 'R' :: 'D' :: ymd) ++ ['-']) s) = [] := by
      rw [List.filter_eq_nil_iff]
      intro s hs hp
      obtain ⟨k, hk1, hk0, -⟩ := helem s hs hp
      omega
    rw [hfil]
    rfl
  · have hpfx : hasPfxB (('O' :: 'R' :: 'D' :: ymd) ++ ['-'])
        (numFor ymd m) = true := by
      rw [numFor_eq_append]
      exact hasPfxB_append _ _
    have hm1 : 1 ≤ m := by
      obtain ⟨k, hk1, hkm, hk⟩ := helem (numFor ymd m) hmem hpfx
      have : m = k := numFor_inj ymd hm (by omega) hk
      omega
    have hmemf : numFor ymd m ∈ existing.filter
        (fun s => hasPfxB (('O' :: 'R' :: 'D' :: ymd) ++ ['-']) s) :=
      List.mem_filter.mpr ⟨hmem, hpfx⟩
    have hmaxed : lexMax? (existing.filter
        (fun s => hasPfxB (('O' :: 'R' :: 'D' :: ymd) ++ ['-']) s))
        = some (numFor ymd m) := by
      unfold lexMax?
      refine foldMax_reaches ymd m hm _ none ?_ (Or.inl rfl) (Or.inl hmemf)
      intro s hs
      obtain ⟨hse, hsp⟩ := List.mem_filter.mp hs
      exact helem s hse hsp
    rw [hmaxed]
    simp only [afterLastDash_numFor ymd m hm, parseNat_pad4 m hm]
    rfl

/-- Allocating once preserves well-formedness, with the maximum advanced. -/
lemma goodState_step (ymd : List Char) (existing : List (List Char))
    (m : Nat) (hm : m + 1 ≤ 9999) (hgs : GoodState existing ymd m) :
    GoodState (existing ++ [numFor ymd (m + 1)]) ymd (m + 1) := by
  obtain ⟨helem, hmax⟩ := hgs
  constructor
  · intro s hs hp
    rcases List.mem_append.mp hs with h | h
    · obtain ⟨k, hk1, hkm, hk⟩ := helem s h hp
      exact ⟨k, hk1, by omega, hk⟩
    · rw [List.mem_singleton] at h
      exact ⟨m + 1, by omega, le_refl _, h⟩
  · right
    exact List.mem_append.mpr (Or.inr (List.mem_singleton.mpr rfl))

/-- The numbers allocated by `n` successive creations on one day, from a
well-formed state with maximum `m`, are exactly the counters
`m+1, …, m+n`. -/
lemma allocSeq_good (ymd : List Char) :
    ∀ (n : Nat) (existing : List (List Char)) (m : Nat),
      m + n ≤ 9999 → GoodState existing ymd m →
      allocSeq existing ymd n
        = (List.range n).map (fun i => numFor ymd (m + 1 + i)) := by
  intro n
  induction n with
  | zero => intro existing m _ _; rfl
  | succ n ih =>
    intro existing m hb hgs
    rw [allocSeq]
    simp only [generate_good ymd existing m (by omega) hgs]
    rw [ih (existing ++ [numFor ymd (m + 1)]) (m + 1) (by omega)
      (goodState_step ymd existing m (by omega) hgs)]
    rw [List.range_succ_eq_map]
    simp only [List.map_cons, List.map_map, Nat.add_zero]
    congr 1
    apply List.map_congr_left
    intro i _
    simp only [Function.comp_apply]
    congr 1
    omega

/-- Claim C5 as amended: starting from any well-formed day state whose
greatest counter is `m` (in particular `m = 0` for an empty day), as long as
the day's counters stay within the four-digit range (`m + n ≤ 9999`), the `n`
numbers allocated by successive non-concurrent creations are exactly the
counters `m+1 … m+n`: pairwise lexicographically increasing in allocation
order, pairwise distinct, each matching `ORD\d\x7b8\x7d-\d\x7b4\x7d`, and the
first number of an empty day carries counter 0001. -/
theorem order_number_allocation_corrected (existing : List (List Char))
    (ymd : List Char) (m n : Nat) (hy : ymdOkB ymd = true)
    (hgs : GoodState existing ymd m) (hb : m + n ≤ 9999) :
    allocSeq existing ymd n
      = (List.range n).map (fun i => numFor ymd (m + 1 + i)) ∧
    List.Pairwise (fun a b => strLtB a b = true) (allocSeq existing ymd n) ∧
    (allocSeq existing ymd n).Nodup ∧
    (∀ s ∈ allocSeq existing ymd n, matchesFormat s = true) ∧
    (m = 0 → 1 ≤ n →
      (allocSeq existing ymd n).head? = some (numFor ymd 1)) := by
  have hseq := allocSeq_good ymd n existing m hb hgs
  have hpair : List.Pairwise (fun a b => strLtB a b = true)
      (allocSeq existing ymd n) := by
    rw [hseq]
    rw [List.pairwise_map]
    refine List.Pairwise.imp_of_mem ?_ (List.pairwise_lt_range n)
    intro i j hi hj hij
    rw [List.mem_range] at hi hj
    exact numFor_lt ymd (m + 1 + i) (m + 1 + j) (by omega) (by omega)
  refine ⟨hseq, hpair, ?_, ?_, ?_⟩
  · refine hpair.imp ?_
    intro a b hab
    intro heq
    subst heq
    rw [strLtB_irrefl] at hab
    exact absurd hab (by simp)
  · intro s hs
    rw [hseq] at hs
    obtain ⟨i, hi, hsi⟩ := List.mem_map.mp hs
    rw [List.mem_range] at hi
    subst hsi
    exact matchesFormat_numFor ymd (m + 1 + i) hy (by omega)
  · intro hm0 hn1
    subst hm0
    rw [hseq]
    cases n with
    | zero => omega
    | succ n2 =>
      rw [List.range_succ_eq_map]
      rfl

/-- Counterexample to claim C5 as stated: on a day that already reached
counter 9999 (a well-formed state), the next two allocations both produce
`ORD20251012-10000` — the numbers are neither unique nor increasing — and
that number does not match `ORD\d\x7b8\x7d-\d\x7b4\x7d` (five-digit
counter). -/
theorem order_number_counterexample :
    ("ORD20251012-9999".data = numFor ("20251012".data) 9999) ∧
    GoodState ["ORD20251012-9999".data] ("20251012".data) 9999 ∧
    allocSeq ["ORD20251012-9999".data] ("20251012".data) 2
      = ["ORD20251012-10000".data, "ORD20251012-10000".data] ∧
    matchesFormat ("ORD20251012-10000".data) = false := by
  refine ⟨rfl, ⟨?_, Or.inr ?_⟩, by decide, by decide⟩
  · intro s hs hp
    rw [List.mem_singleton] at hs
    subst hs
    exact ⟨9999, by omega, le_refl _, rfl⟩
  · rw [List.mem_singleton]
    rfl

/-- Witness for C5 (amended) at concrete inputs: three allocations on an
empty day produce `ORD20250101-0001/0002/0003`, distinct, increasing, and
format-conforming. -/
theorem order_number_allocation_witness :
    allocSeq [] ("20250101".data) 3
      = (List.range 3).map (fun i => numFor ("20250101".data) (0 + 1 + i)) ∧
    (allocSeq [] ("20250101".data) 3).Nodup ∧
    (∀ s ∈ allocSeq [] ("20250101".data) 3, matchesFormat s = true) ∧
    (allocSeq [] ("20250101".data) 3).head?
      = some (numFor ("20250101".data) 1) := by
  have h := order_number_allocation_corrected [] ("20250101".data) 0 3
    (by decide)
    ⟨fun s hs => absurd hs (List.not_mem_nil s), Or.inl rfl⟩
    (by omega)
  exact ⟨h.1, h.2.2.1, h.2.2.2.1, h.2.2.2.2 rfl (by omega)⟩

end CRM
